import Mathlib

/-
  Verification of the bulk spreadsheet import reconciliation engine of the
  salary-tracker repository (src/components/BulkImport.tsx), against its
  natural-language specification.

  The TypeScript source is shallowly embedded: JS strings are lists of
  characters, JS numbers are exact rationals (no NaN / Infinity arise in the
  modelled fragment; `Number.isFinite` checks from the source are therefore
  always true and noted where they occur), spreadsheet rows are association
  lists from column header to cell value, and the persistence service is an
  explicit record of tables with all calls assumed error-free.
-/

namespace Insight

/-- JS strings, modelled as lists of characters. -/
abbrev Str := List Char

/-- Literal helper: a Lean string literal as a `Str`. -/
def S (s : String) : Str := s.data

/-- ASCII lowering, the effect of JS `toLowerCase` on the ASCII strings used here. -/
def strLower (s : Str) : Str := s.map Char.toLower

/-- ASCII raising, the effect of JS `toUpperCase` on the ASCII strings used here. -/
def strUpper (s : Str) : Str := s.map Char.toUpper

/-- JS whitespace (ASCII part: space, tab, LF, VT, FF, CR). -/
def isJSWhite (c : Char) : Bool :=
  c = ' ' || c = '\t' || c = '\n' || c = '\r' || c.toNat = 11 || c.toNat = 12

/-- JS `String.prototype.trim`. -/
def strTrim (s : Str) : Str :=
  ((s.dropWhile isJSWhite).reverse.dropWhile isJSWhite).reverse

/-- JS `str.split(" ")`: split on every single space, keeping empty pieces. -/
def splitSpace : Str → List Str
  | [] => [[]]
  | c :: rest =>
    if c = ' ' then [] :: splitSpace rest
    else
      match splitSpace rest with
      | [] => [[c]]
      | p :: ps => (c :: p) :: ps

/-- Whether `pat` occurs at the start of `s`. -/
def strStartsWith : Str → Str → Bool
  | _, [] => true
  | [], _ :: _ => false
  | c :: s, d :: t => c = d && strStartsWith s t

/-- JS `String.prototype.includes` (substring test). -/
def strIncludes : Str → Str → Bool
  | [], sub => sub.isEmpty
  | c :: rest, sub => strStartsWith (c :: rest) sub || strIncludes rest sub

def isDigitCh (c : Char) : Bool := '0' ≤ c && c ≤ '9'

def isHexDigitCh (c : Char) : Bool :=
  isDigitCh c || ('a' ≤ c && c ≤ 'f') || ('A' ≤ c && c ≤ 'F')

def digitVal (c : Char) : ℕ := c.toNat - '0'.toNat

def hexDigitVal (c : Char) : ℕ :=
  if isDigitCh c then c.toNat - '0'.toNat
  else if 'a' ≤ c && c ≤ 'f' then c.toNat - 'a'.toNat + 10
  else c.toNat - 'A'.toNat + 10

def digitsToNat (ds : Str) : ℕ := ds.foldl (fun n c => 10 * n + digitVal c) 0

def hexDigitsToNat (ds : Str) : ℕ := ds.foldl (fun n c => 16 * n + hexDigitVal c) 0

/-- The decimal tail of JS `parseInt`: longest run of leading digits; `none` (NaN)
    when there is none. -/
def parseIntDec (sgn : ℤ) (t : Str) : Option ℤ :=
  let ds := t.takeWhile isDigitCh
  if ds.isEmpty then none else some (sgn * (digitsToNat ds : ℤ))

/-- JS `parseInt(s)` (no explicit radix): skip leading whitespace, optional
    sign; a `0x`/`0X` prefix commits to radix 16 and is stripped, after which
    the longest run of hexadecimal digits is taken — NaN (`none`) when that run
    is empty (ECMA-262: `parseInt("0x")` and `parseInt("0xZ")` are NaN);
    otherwise the longest run of decimal digits, NaN when no digit is
    consumed; everything after the longest valid integer prefix is ignored. -/
def parseIntJS (s : Str) : Option ℤ :=
  let t1 := s.dropWhile isJSWhite
  let sgn : ℤ := match t1 with | '-' :: _ => -1 | _ => 1
  let t2 : Str := match t1 with | '-' :: r => r | '+' :: r => r | r => r
  match t2 with
  | '0' :: c :: r =>
    if c = 'x' || c = 'X' then
      let ds := r.takeWhile isHexDigitCh
      if ds.isEmpty then none else some (sgn * (hexDigitsToNat ds : ℤ))
    else parseIntDec sgn t2
  | t => parseIntDec sgn t

/-- JS `parseFloat` restricted to strings over the alphabet `0-9 . + -`, which is
    the only kind the source ever passes to it (after the `[^0-9.+-]` strip):
    optional sign, integer digits, optional dot with fraction digits, longest
    valid prefix; NaN (`none`) when no digit occurs in either part. -/
def parseFloatCleaned (s : Str) : Option ℚ :=
  let sgn : ℤ := match s with | '-' :: _ => -1 | _ => 1
  let t : Str := match s with | '-' :: r => r | '+' :: r => r | r => r
  let ip := t.takeWhile isDigitCh
  let t2 := t.drop ip.length
  let fp : Str := match t2 with
    | '.' :: r => r.takeWhile isDigitCh
    | _ => []
  if ip.isEmpty && fp.isEmpty then none
  else some (Rat.divInt (sgn * (digitsToNat ip * 10 ^ fp.length + digitsToNat fp : ℕ))
    ((10 : ℤ) ^ fp.length))

/-- The `val.replace(/[^0-9.+-]/g, "")` strip from the source. -/
def stripNonNumeric (s : Str) : Str :=
  s.filter (fun c => isDigitCh c || c = '.' || c = '+' || c = '-')

/-- Decimal digits of a natural number (JS `String(n)` for naturals). -/
def natToStr (n : ℕ) : Str := Nat.toDigits 10 n

/-- JS `String(i)` for integers. -/
def intToStr : ℤ → Str
  | Int.ofNat n => natToStr n
  | Int.negSucc n => '-' :: natToStr (n + 1)

/-- A spreadsheet cell value as handed over by the spreadsheet codec
    (`sheet_to_json`): a number or a string. -/
inductive Cell where
  | num (q : ℚ)
  | str (s : Str)
deriving DecidableEq

/-- A raw spreadsheet row: an association list from column header to cell,
    in column order, with the headers of a real row pairwise distinct. -/
abbrev Row := List (Str × Cell)

/-- JS property read `row[key]`; `none` is JS `undefined`. -/
def rowGet (row : Row) (k : Str) : Option Cell :=
  (row.find? (fun p => p.1 = k)).map (·.2)

/-- The numeric coercion of the source's inner column loop: numbers pass
    through; strings are stripped to `[0-9.+-]` and parsed with `parseFloat`
    when non-empty; everything else is `null`. -/
def coerceNum : Option Cell → Option ℚ
  | some (.num q) => some q
  | some (.str s) =>
    let cleaned := stripNonNumeric s
    if cleaned.isEmpty then none else parseFloatCleaned cleaned
  | none => none

/-- JS truthiness of a possibly-absent cell (`!monthYearStr` in the source);
    NaN does not arise in the rational model. -/
def cellTruthy : Option Cell → Bool
  | none => false
  | some (.num q) => decide (q ≠ 0)
  | some (.str s) => !s.isEmpty

/-- JS `String(cell)`. Integer-valued numbers print as their decimal digits,
    matching JS; the claims under verification never reach `String` on a
    non-integral number, for which a nominal `num/den` form is used. -/
def cellToString : Cell → Str
  | .str s => s
  | .num q => if q.den = 1 then intToStr q.num else intToStr q.num ++ '/' :: natToStr q.den

/-- The fixed 12-entry month-abbreviation table of `parseMonthYear`. -/
def MONTH_TABLE : List (Str × ℕ) :=
  [(S "JAN", 1), (S "FEB", 2), (S "MAR", 3), (S "APR", 4), (S "MAY", 5), (S "JUN", 6),
   (S "JUL", 7), (S "AUG", 8), (S "SEP", 9), (S "OCT", 10), (S "NOV", 11), (S "DEC", 12)]

/-- `monthMap[token]` from the source. -/
def monthMapLookup (tok : Str) : Option ℕ :=
  (MONTH_TABLE.find? (fun p => p.1 = tok)).map (·.2)

/-- `parseMonthYear` from BulkImport.tsx: trim, split on single spaces into
    exactly two parts, look the upper-cased first part up in the month table,
    `parseInt` the second part. -/
def parseMonthYear (s : Str) : Option (ℕ × ℤ) :=
  match splitSpace (strTrim s) with
  | [p0, p1] =>
    match monthMapLookup (strUpper p0), parseIntJS p1 with
    | some m, some y => some (m, y)
    | _, _ => none
  | _ => none

/-- One earning or deduction line item of a parsed record. -/
structure LineItem where
  category : Str
  amount : ℚ
deriving DecidableEq

/-- `ParsedRecord` from BulkImport.tsx. -/
structure ParsedRecord where
  organization : Str
  month : ℕ
  year : ℤ
  earnings : List LineItem
  deductions : List LineItem
  totalEarnings : ℚ
  totalDeductions : ℚ
  netSalary : ℚ
deriving DecidableEq

/-- `InvalidRow` from BulkImport.tsx. -/
structure InvalidRow where
  sheetName : Str
  excelRowNumber : ℕ
  reason : Str
deriving DecidableEq

/-- The result triple of `processSheet`. -/
structure SheetResult where
  records : List ParsedRecord
  skippedRows : ℕ
  invalidRows : List InvalidRow
deriving DecidableEq

/-- `SheetPlan` from BulkImport.tsx. -/
structure SheetPlan where
  sheetName : Str
  records : List ParsedRecord
  skippedRows : ℕ
deriving DecidableEq

/-- `ImportPlan` from BulkImport.tsx. -/
structure ImportPlan where
  sheets : List SheetPlan
  totalRecordsToImport : ℕ
  totalSkippedRows : ℕ
  invalidRows : List InvalidRow
deriving DecidableEq

def TOTAL_EARNINGS_HEADER : Str := S "Total Earnings"
def TOTAL_DEDUCTIONS_HEADER : Str := S "Total Deductions"
def NET_SALARY_HEADER : Str := S "Net Salary"

/-- The reserved-header set of `processSheet` (month-year column plus the three
    declared-totals columns). -/
def reservedHeaders (monthYearHeader : Str) : List Str :=
  [monthYearHeader, TOTAL_EARNINGS_HEADER, TOTAL_DEDUCTIONS_HEADER, NET_SALARY_HEADER]

/-- `ORG_EARNINGS` lookup: the static per-organization earning-category lists. -/
def ORG_EARNINGS (org : Str) : List Str :=
  if org = S "TCS" then
    [S "Basic Salary", S "BoB Kitty Allowance", S "Conveyance Taxable",
     S "Conveyance Non Taxable", S "HRA", S "Sundry Medical", S "LTA",
     S "Personal Allowance", S "Miscellaneous", S "City Allowance",
     S "Performance Pay", S "Leave Encashment"]
  else if org = S "RBS" then
    [S "Basic Pay", S "Supplementary Allowance", S "HRA", S "Statutory Bonus",
     S "Oncall Allowance", S "National Holiday Pay", S "Ovation Award",
     S "Leave Encashment", S "Vaccine Payout", S "Shift Allowance"]
  else if org = S "CITI" then
    [S "Basic", S "HRA", S "Special Allowance", S "Location Premium Alllownace",
     S "Holiday Pay", S "Citi Gratitude Bonus", S "Award"]
  else if org = S "NATWEST" then
    [S "Base Salary", S "Supplementary Allowance", S "HRA", S "Shift Allowance",
     S "Oncall Allowance", S "Bonus", S "Telephone Unclaimed",
     S "Compulsory Holiday Pay", S "Share SIS Award"]
  else []

/-- `ORG_DEDUCTIONS` lookup: the static per-organization deduction-category lists. -/
def ORG_DEDUCTIONS (org : Str) : List Str :=
  if org = S "TCS" then
    [S "Provident Fund", S "Income Tax", S "Health Insurance Scheme Premium",
     S "Professional Tax", S "Labour Welfare", S "Transport Recovery",
     S "TCS Welfar Trust", S "Earlier Payout", S "Principal Loan Amount"]
  else if org = S "RBS" then
    [S "Income Tax", S "Provident Fund", S "Professional Tax",
     S "Hospitalisation Insurance", S "VPCP Father", S "VPCP Mother",
     S "Life Insurance Topup", S "VPCP Topup Father", S "Voluntary PF",
     S "Labour Welfare Fund"]
  else if org = S "CITI" then
    [S "Income Tax", S "Provident Fund", S "Mediclaim Premium",
     S "Mediclaim Insurance Dependent", S "Professional Tax",
     S "Citi Gratitude Deductions", S "Insurance OPD Recovery"]
  else if org = S "NATWEST" then
    [S "Income Tax", S "Provident Fund", S "Professional Tax",
     S "Hospitalisation Insurance", S "VPC Father", S "VPC Mother",
     S "VPC Topup Father", S "VPC Topup Mother", S "Labour Welfare Fund",
     S "Share SIS Award"]
  else []

/-- The fixed deduction-keyword list of `isDeductionHeader`. -/
def deductionKeywords : List Str :=
  [S "tax", S "pf", S "provident", S "esi", S "insurance", S "professional",
   S "labour", S "welfare", S "recovery", S "loan", S "tcs", S "earlier payout",
   S "principal"]

/-- `isDeductionHeader` from `processSheet`: lower-case the header and test each
    keyword for substring membership. -/
def isDeductionHeader (header : Str) : Bool :=
  deductionKeywords.any (fun kw => strIncludes (strLower header) kw)

/-- How a non-reserved numeric column is bucketed. -/
inductive ColKind where
  | earning
  | deduction
deriving DecidableEq

/-- The ordered classification chain of `processSheet`'s inner loop: exact
    earning-list match, then exact deduction-list match, then keyword heuristic,
    else earning. -/
def classifyColumn (orgE orgD : List Str) (h : Str) : ColKind :=
  if h ∈ orgE then .earning
  else if h ∈ orgD then .deduction
  else if isDeductionHeader h then .deduction
  else .earning

/-- Mutable state of the per-row column loop. -/
structure RowAcc where
  earnings : List LineItem
  deductions : List LineItem
  earningsTotal : ℚ
  deductionsTotal : ℚ
  netSalary : ℚ
deriving DecidableEq

/-- One iteration of the per-row column loop of `processSheet`. -/
def stepHeader (orgE orgD reserved : List Str) (row : Row) (acc : RowAcc) (h : Str) :
    RowAcc :=
  match coerceNum (rowGet row h) with
  | none => acc
  | some v =>
    if h = TOTAL_EARNINGS_HEADER then { acc with earningsTotal := v }
    else if h = TOTAL_DEDUCTIONS_HEADER then { acc with deductionsTotal := v }
    else if h = NET_SALARY_HEADER then { acc with netSalary := v }
    else if h ∈ reserved || v = 0 then acc
    else
      match classifyColumn orgE orgD h with
      | .earning => { acc with earnings := acc.earnings ++ [⟨h, v⟩] }
      | .deduction => { acc with deductions := acc.deductions ++ [⟨h, v⟩] }

/-- The whole per-row column loop, over the headers of the sheet's first row. -/
def parseRowBody (orgE orgD reserved : List Str) (row : Row) (headers : List Str) :
    RowAcc :=
  headers.foldl (stepHeader orgE orgD reserved row) ⟨[], [], 0, 0, 0⟩

/-- `headers.find(h => h.toLowerCase().includes("month") && …includes("year")) ?? headers[0]`. -/
def findMonthYearHeader (headers : List Str) : Str :=
  match headers.find? (fun h =>
      strIncludes (strLower h) (S "month") && strIncludes (strLower h) (S "year")) with
  | some h => h
  | none => headers.headD []

/-- The fate of one data row: a parsed record, or the reason string of the
    invalid-row diagnostic. -/
def rowOutcome (headers : List Str) (mYH : Str) (org : Str) (row : Row) :
    Except Str ParsedRecord :=
  match rowGet row mYH with
  | none => .error (S "Missing Month/Year value")
  | some c =>
    if cellTruthy (some c) = false then .error (S "Missing Month/Year value")
    else
      match parseMonthYear (cellToString c) with
      | none => .error (S "Invalid Month/Year format: " ++ cellToString c)
      | some (m, y) =>
        let acc := parseRowBody (ORG_EARNINGS org) (ORG_DEDUCTIONS org)
          (reservedHeaders mYH) row headers
        .ok ⟨org, m, y, acc.earnings, acc.deductions,
          acc.earningsTotal, acc.deductionsTotal, acc.netSalary⟩

/-- The row loop of `processSheet`, carrying the 0-based index of the first
    remaining row (invalid rows are reported at `index + 2`: header row = 1). -/
def processSheetGo (headers : List Str) (mYH : Str) (org : Str) :
    ℕ → List Row → SheetResult
  | _, [] => ⟨[], 0, []⟩
  | i, row :: rest =>
    let r := processSheetGo headers mYH org (i + 1) rest
    match rowOutcome headers mYH org row with
    | .ok rec => ⟨rec :: r.records, r.skippedRows, r.invalidRows⟩
    | .error reason => ⟨r.records, r.skippedRows + 1, ⟨org, i + 2, reason⟩ :: r.invalidRows⟩

/-- `processSheet` from BulkImport.tsx: empty sheets yield the empty result;
    otherwise headers are the keys of the first row and every row is parsed. -/
def processSheet (rows : List Row) (org : Str) : SheetResult :=
  match rows with
  | [] => ⟨[], 0, []⟩
  | r0 :: _ =>
    let headers := r0.map Prod.fst
    processSheetGo headers (findMonthYearHeader headers) org 0 rows

/-- The plan-building loop of `handleFileUpload`: process every sheet, drop
    sheets contributing neither records nor invalid rows, accumulate totals and
    concatenate invalid rows in sheet order. -/
def buildImportPlan (workbook : List (Str × List Row)) : ImportPlan :=
  workbook.foldl
    (fun plan sheet =>
      let res := processSheet sheet.2 sheet.1
      if res.records.isEmpty && res.invalidRows.isEmpty then plan
      else
        ⟨plan.sheets ++ [⟨sheet.1, res.records, res.skippedRows⟩],
         plan.totalRecordsToImport + res.records.length,
         plan.totalSkippedRows + res.skippedRows,
         plan.invalidRows ++ res.invalidRows⟩)
    ⟨[], 0, 0, []⟩

/-! ### Import Executor (`performImport`)

The persistence service is modelled as a record of tables for one fixed user
(row-level ownership is handled by the service); persistence calls are assumed
error-free, which is the regime the executor's success path describes — a
thrown storage error aborts the loop in the source and is outside this model. -/

/-- A `salary_records` row (for the one modelled user). -/
structure SalaryRow where
  id : ℕ
  month : ℕ
  year : ℤ
  organization : Str
  totalEarnings : ℚ
  totalDeductions : ℚ
  netSalary : ℚ
  grossSalary : ℚ
deriving DecidableEq

/-- An `earnings` / `deductions` row. -/
structure ItemRow where
  salaryRecordId : ℕ
  category : Str
  amount : ℚ
deriving DecidableEq

/-- An `organization_templates` row. -/
structure TemplateRow where
  id : ℕ
  name : Str
deriving DecidableEq

/-- A `template_earnings` / `template_deductions` row. -/
structure CatRow where
  templateId : ℕ
  category : Str
deriving DecidableEq

/-- The persisted state: one user's tables, a fresh-id supply, and the
    processed-records progress counter of the import. -/
structure DB where
  templates : List TemplateRow
  templateEarnings : List CatRow
  templateDeductions : List CatRow
  salaryRecords : List SalaryRow
  earnings : List ItemRow
  deductions : List ItemRow
  nextId : ℕ
  processed : ℕ
deriving DecidableEq

def MAX_AMOUNT : ℚ := 100000000
def MIN_YEAR : ℤ := 2000
def MAX_YEAR : ℤ := 2100

/-- The executor's first write-time guard (`Number.isFinite` from the source is
    always true over exact rationals). -/
def monthYearOk (r : ParsedRecord) : Bool :=
  decide (1 ≤ r.month) && decide (r.month ≤ 12) &&
  decide (MIN_YEAR ≤ r.year) && decide (r.year ≤ MAX_YEAR)

/-- The executor's second write-time guard. Note the source bounds only
    `totalEarnings` and `totalDeductions`; `netSalary` is merely checked for
    finiteness, which always holds here. -/
def totalsOk (r : ParsedRecord) : Bool :=
  decide (0 ≤ r.totalEarnings) && decide (0 ≤ r.totalDeductions) &&
  decide (r.totalEarnings ≤ MAX_AMOUNT) && decide (r.totalDeductions ≤ MAX_AMOUNT)

/-- The executor's third write-time guard (`hasInvalidLineItem`, negated). -/
def lineItemsOk (r : ParsedRecord) : Bool :=
  r.earnings.all (fun e => decide (0 ≤ e.amount) && decide (e.amount ≤ MAX_AMOUNT)) &&
  r.deductions.all (fun d => decide (0 ≤ d.amount) && decide (d.amount ≤ MAX_AMOUNT))

/-- `supabase.from("salary_records").upsert(..., { onConflict: "user_id,month,year" })`:
    update the existing `(month, year)` row in place, else insert a fresh one;
    returns the row's id. `gross_salary` is set to `totalEarnings` as in the source. -/
def upsertSalaryRecord (db : DB) (r : ParsedRecord) : DB × ℕ :=
  match db.salaryRecords.find? (fun s => s.month = r.month && s.year = r.year) with
  | some s =>
    ({ db with
        salaryRecords := db.salaryRecords.map (fun t =>
          if t.id = s.id then
            { t with organization := r.organization, totalEarnings := r.totalEarnings,
                     totalDeductions := r.totalDeductions, netSalary := r.netSalary,
                     grossSalary := r.totalEarnings }
          else t) },
     s.id)
  | none =>
    ({ db with
        salaryRecords := db.salaryRecords ++
          [⟨db.nextId, r.month, r.year, r.organization, r.totalEarnings,
            r.totalDeductions, r.netSalary, r.totalEarnings⟩],
        nextId := db.nextId + 1 },
     db.nextId)

/-- The per-record body of the executor's inner loop: the three write-time
    guards (`continue` on failure), then the record upsert, the progress-counter
    increment, and the line-item inserts. The source inserts the record's
    earnings and deductions WITHOUT deleting the pre-existing line items of an
    upserted record. -/
def execRecord (db : DB) (r : ParsedRecord) : DB :=
  if !monthYearOk r then db
  else if !totalsOk r then db
  else if !lineItemsOk r then db
  else
    let (db1, rid) := upsertSalaryRecord db r
    let db2 := { db1 with processed := db1.processed + 1 }
    let db3 := { db2 with
      earnings := db2.earnings ++ r.earnings.map (fun (e : LineItem) => (⟨rid, e.category, e.amount⟩ : ItemRow)) }
    { db3 with
      deductions := db3.deductions ++ r.deductions.map (fun (d : LineItem) => (⟨rid, d.category, d.amount⟩ : ItemRow)) }

/-- JS `Set.add` / insertion-ordered set union. -/
def insertUnique (l : List Str) (x : Str) : List Str :=
  if x ∈ l then l else l ++ [x]

/-- The union of the earning categories of a sheet's records, in insertion order. -/
def collectEarningCats (records : List ParsedRecord) : List Str :=
  records.foldl (fun acc r => r.earnings.foldl (fun a e => insertUnique a e.category) acc) []

/-- The union of the deduction categories of a sheet's records, in insertion order. -/
def collectDeductionCats (records : List ParsedRecord) : List Str :=
  records.foldl (fun acc r => r.deductions.foldl (fun a d => insertUnique a d.category) acc) []

/-- The per-sheet body of `performImport`: find-or-create the organization
    template by name, wipe-and-reinsert its category lists, then run the
    record loop. Sheets without records are skipped. -/
def execSheet (db : DB) (sp : SheetPlan) : DB :=
  if sp.records.isEmpty then db
  else
    let allE := collectEarningCats sp.records
    let allD := collectDeductionCats sp.records
    let found := db.templates.find? (fun t => t.name = sp.sheetName)
    let db1tid : DB × ℕ :=
      match found with
      | some t =>
        ({ db with
            templateEarnings := db.templateEarnings.filter (fun c => c.templateId ≠ t.id),
            templateDeductions := db.templateDeductions.filter (fun c => c.templateId ≠ t.id) },
         t.id)
      | none =>
        ({ db with
            templates := db.templates ++ [(⟨db.nextId, sp.sheetName⟩ : TemplateRow)],
            nextId := db.nextId + 1 },
         db.nextId)
    let db1 := db1tid.1
    let tid := db1tid.2
    let db2 := { db1 with
      templateEarnings := db1.templateEarnings ++ allE.map (fun c => (⟨tid, c⟩ : CatRow)),
      templateDeductions := db1.templateDeductions ++ allD.map (fun c => (⟨tid, c⟩ : CatRow)) }
    sp.records.foldl execRecord db2

/-- `performImport` on an approved plan, in the error-free persistence regime. -/
def execPlan (db : DB) (plan : ImportPlan) : DB :=
  plan.sheets.foldl execSheet db

/-- An empty account. -/
def emptyDB : DB := ⟨[], [], [], [], [], [], 0, 0⟩

/-! ### Excel export (`handleExportToExcel`)

The export is modelled on the fetched salary records (with their nested line
items), with both rare-category toggles in their default `true` state folded in
as parameters, no year-range filter text being modelled (empty filter fields
leave the record list untouched in the source), and the spreadsheet codec's
`aoa_to_sheet` / `sheet_to_json` boundary modelled as pairing each produced
value row with the header row — the codec contract of the specification. -/

/-- A salary record as fetched by the export query. -/
structure DbExportRecord where
  month : ℕ
  year : ℤ
  organization : Str
  totalEarnings : ℚ
  totalDeductions : ℚ
  netSalary : ℚ
  earnings : List LineItem
  deductions : List LineItem
deriving DecidableEq

/-- `normalizeOrgName` from `handleExportToExcel`. -/
def normalizeOrgName (rawOrg : Str) : Str :=
  let trimmed := strTrim rawOrg
  if trimmed.isEmpty then S "Not specified"
  else
    let upper := strUpper trimmed
    if strIncludes upper (S "TATA CONSULTANCY") || upper = S "TCS" then S "TCS"
    else if strIncludes upper (S "NATWEST") || strIncludes upper (S "NATIONAL WESTMINSTER") then
      S "NATWEST"
    else if strIncludes upper (S "RBS") || strIncludes upper (S "ROYAL BANK OF SCOTLAND") then
      S "RBS"
    else if strIncludes upper (S "CITI") || strIncludes upper (S "CITIBANK") then S "CITI"
    else trimmed

/-- Per-organization accumulation state (`OrgExportData`). -/
structure OrgData where
  records : List DbExportRecord
  earnCats : List Str
  dedCats : List Str
  earnCounts : List (Str × ℕ)
  dedCounts : List (Str × ℕ)
deriving DecidableEq

/-- JS `Map.set(c, (m.get(c) || 0) + 1)`: bump in place, else append. -/
def bumpCount (m : List (Str × ℕ)) (c : Str) : List (Str × ℕ) :=
  if (m.find? (fun p => p.1 = c)).isSome then
    m.map (fun p => if p.1 = c then (p.1, p.2 + 1) else p)
  else m ++ [(c, 1)]

/-- Fold one record into its organization's accumulation state. -/
def orgDataAdd (od : OrgData) (r : DbExportRecord) : OrgData :=
  { od with
    records := od.records ++ [r],
    earnCats := r.earnings.foldl (fun a e => insertUnique a e.category) od.earnCats,
    dedCats := r.deductions.foldl (fun a d => insertUnique a d.category) od.dedCats,
    earnCounts := r.earnings.foldl (fun a e => bumpCount a e.category) od.earnCounts,
    dedCounts := r.deductions.foldl (fun a d => bumpCount a d.category) od.dedCounts }

/-- One step of the `orgMap` grouping loop: update the key's bucket in place,
    else append a fresh bucket. -/
def groupStep (m : List (Str × OrgData)) (r : DbExportRecord) : List (Str × OrgData) :=
  let key := normalizeOrgName r.organization
  if (m.find? (fun p => p.1 = key)).isSome then
    m.map (fun p => if p.1 = key then (p.1, orgDataAdd p.2 r) else p)
  else m ++ [(key, orgDataAdd ⟨[], [], [], [], []⟩ r)]

/-- The `orgMap` grouping loop: a JS `Map` keyed by normalized organization
    name, in insertion order. -/
def groupByOrg (rs : List DbExportRecord) : List (Str × OrgData) :=
  rs.foldl groupStep []

/-- Lexicographic string order, the JS default array sort on strings. -/
def strLe : Str → Str → Bool
  | [], _ => true
  | _ :: _, [] => false
  | a :: s, b :: t => if a < b then true else if b < a then false else strLe s t

/-- Insert into a sorted list (the comparison-sort model of JS `Array.sort`;
    categories are pairwise distinct and records have pairwise distinct
    `(year, month)` keys, so the sorted result does not depend on the
    algorithm). -/
def insertSorted {α : Type} (le : α → α → Bool) (x : α) : List α → List α
  | [] => [x]
  | y :: l => if le x y then x :: y :: l else y :: insertSorted le x l

def sortByLe {α : Type} (le : α → α → Bool) (l : List α) : List α :=
  l.foldr (insertSorted le) []

def sortStrs (l : List Str) : List Str := sortByLe strLe l

/-- The record comparator of the export: by year, then month, ascending. -/
def recLe (a b : DbExportRecord) : Bool :=
  if a.year = b.year then a.month ≤ b.month else a.year ≤ b.year

def sortRecords (rs : List DbExportRecord) : List DbExportRecord := sortByLe recLe rs

def RARE_CATEGORY_THRESHOLD : ℕ := 3

/-- Count lookup with JS `|| 0` default. -/
def countOf (m : List (Str × ℕ)) (c : Str) : ℕ :=
  match m.find? (fun p => p.1 = c) with
  | some p => p.2
  | none => 0

/-- `MONTHS` from types/salary.ts. -/
def MONTHS_TABLE : List Str :=
  [S "January", S "February", S "March", S "April", S "May", S "June",
   S "July", S "August", S "September", S "October", S "November", S "December"]

/-- `MONTHS[month-1].slice(0,3).toUpperCase() + " " + year`; months outside 1..12
    would throw in the source and are excluded by hypothesis where this is used. -/
def monthLabel (m : ℕ) (y : ℤ) : Str :=
  strUpper ((MONTHS_TABLE.getD (m - 1) []).take 3) ++ ' ' :: intToStr y

/-- `record.earnings.find(e => e.category === cat)?.amount`, with 0 default. -/
def findAmount (items : List LineItem) (c : Str) : ℚ :=
  match items.find? (fun it => it.category = c) with
  | some it => it.amount
  | none => 0

/-- The header row of one exported organization worksheet. -/
def exportHeaders (eCats dCats : List Str) : List Str :=
  S "Month Year" :: (eCats ++ (dCats ++
    [TOTAL_EARNINGS_HEADER, TOTAL_DEDUCTIONS_HEADER, S "Net Pay"]))

/-- One exported value row (`Number(x) || 0` is the identity in the exact model
    except at 0, where it is also the identity). -/
def exportRow (eCats dCats : List Str) (r : DbExportRecord) : List Cell :=
  .str (monthLabel r.month r.year) ::
    (eCats.map (fun c => Cell.num (findAmount r.earnings c)) ++
     (dCats.map (fun c => Cell.num (findAmount r.deductions c)) ++
      [Cell.num r.totalEarnings, Cell.num r.totalDeductions, Cell.num r.netSalary]))

/-- One organization's worksheet, already decoded back to header-keyed rows
    (the codec boundary: `sheet_to_json ∘ aoa_to_sheet` pairs each value row
    with the header row; headers are pairwise distinct under the hypotheses of
    the round-trip statements). -/
def exportSheet (includeRareE includeRareD : Bool) (od : OrgData) : List Row :=
  let eCats0 := sortStrs od.earnCats
  let dCats0 := sortStrs od.dedCats
  let eCats := if includeRareE then eCats0
    else eCats0.filter (fun c => RARE_CATEGORY_THRESHOLD ≤ countOf od.earnCounts c)
  let dCats := if includeRareD then dCats0
    else dCats0.filter (fun c => RARE_CATEGORY_THRESHOLD ≤ countOf od.dedCounts c)
  let headers := exportHeaders eCats dCats
  ((sortRecords od.records).map (exportRow eCats dCats)).map (fun cells => headers.zip cells)

/-- `orgName.substring(0, 31) || "Organisation"`. -/
def sheetNameOf (orgName : Str) : Str :=
  if (orgName.take 31).isEmpty then S "Organisation" else orgName.take 31

/-- The whole export: one worksheet per normalized organization, in `orgMap`
    insertion order. -/
def exportWorkbook (includeRareE includeRareD : Bool) (rs : List DbExportRecord) :
    List (Str × List Row) :=
  (groupByOrg rs).map (fun p => (sheetNameOf p.1, exportSheet includeRareE includeRareD p.2))

/-! ### Backup import (`handleImportBackupFile` / `performBackupImport`) -/

/-- A JSON value (`JSON.parse` output). -/
inductive Json where
  | null
  | bool (b : Bool)
  | num (q : ℚ)
  | str (s : Str)
  | arr (elems : List Json)
  | obj (fields : List (Str × Json))

/-- JS property read on a parsed JSON value: objects only (duplicate keys in a
    JSON text resolve to the last occurrence, hence the reversed lookup);
    `version` on arrays and primitives is `undefined`. -/
def jsGetField : Json → Str → Option Json
  | .obj fields, k => (fields.reverse.find? (fun p => p.1 = k)).map (·.2)
  | _, _ => none

/-- JS truthiness of a parsed JSON value. -/
def jsTruthy : Json → Bool
  | .null => false
  | .bool b => b
  | .num q => decide (q ≠ 0)
  | .str s => !s.isEmpty
  | .arr _ => true
  | .obj _ => true

/-- `typeof rawData === "object"` for a parsed JSON value. -/
def jsTypeofObject : Json → Bool
  | .null => true
  | .arr _ => true
  | .obj _ => true
  | _ => false

/-- `(rawData as any).version === 1`. -/
def jsVersionIsOne (j : Json) : Bool :=
  match jsGetField j (S "version") with
  | some (.num q) => decide (q = 1)
  | _ => false

/-- A selected backup file: its byte size, and the result of `JSON.parse` on its
    text (`none` models a parse failure of the external JSON codec). -/
structure BackupFile where
  size : ℕ
  parsed : Option Json

def MAX_BACKUP_FILE_SIZE : ℕ := 10 * 1024 * 1024

/-- The validation phase of `handleImportBackupFile`: size check, parse check,
    then `!rawData || typeof rawData !== "object" || rawData.version !== 1`.
    On success the parsed data becomes the pending payload for the
    confirmation dialog; no persistence call is made either way. -/
def backupFileCheck (f : BackupFile) : Except Str Json :=
  if MAX_BACKUP_FILE_SIZE < f.size then .error (S "Backup file is too large (max 10MB)")
  else
    match f.parsed with
    | none => .error (S "Invalid backup file format")
    | some j =>
      if jsTruthy j && jsTypeofObject j && jsVersionIsOne j then .ok j
      else .error (S "Invalid backup file format")

/-- The account state touched by a backup restore: the salary/template tables,
    plus budget history, employment history and the profile row. -/
structure AccountState where
  db : DB
  budgetHistory : List Json
  employmentHistory : List Json
  profile : Option Json

/-- The `wipe_all_salary_data` RPC: delete the user's line items, template
    categories, salary records and templates. -/
def wipeAllSalaryData (db : DB) : DB :=
  { db with
    templates := [], templateEarnings := [], templateDeductions := [],
    salaryRecords := [], earnings := [], deductions := [] }

/-- JSON field as a string for restored rows; non-string values are carried
    nominally (the persistence service's own coercions are outside the model). -/
def jsFieldStr (j : Json) (k : Str) : Str :=
  match jsGetField j k with
  | some (.str s) => s
  | _ => []

def jsFieldNum (j : Json) (k : Str) : ℚ :=
  match jsGetField j k with
  | some (.num q) => q
  | _ => 0

def jsFieldNat (j : Json) (k : Str) : ℕ :=
  match jsGetField j k with
  | some (.num q) => q.num.toNat
  | _ => 0

def jsFieldInt (j : Json) (k : Str) : ℤ :=
  match jsGetField j k with
  | some (.num q) => q.num
  | _ => 0

def jsFieldArr (j : Json) (k : Str) : List Json :=
  match jsGetField j k with
  | some (.arr l) => l
  | _ => []

/-- Restore one organization template with its category lists. -/
def restoreTemplate (st : AccountState) (t : Json) : AccountState :=
  let db := st.db
  let tid := db.nextId
  let db1 := { db with
    templates := db.templates ++ [(⟨tid, jsFieldStr t (S "name")⟩ : TemplateRow)],
    nextId := db.nextId + 1 }
  let db2 := { db1 with
    templateEarnings := db1.templateEarnings ++
      (jsFieldArr t (S "template_earnings")).map
        (fun e => (⟨tid, jsFieldStr e (S "category")⟩ : CatRow)),
    templateDeductions := db1.templateDeductions ++
      (jsFieldArr t (S "template_deductions")).map
        (fun d => (⟨tid, jsFieldStr d (S "category")⟩ : CatRow)),
    processed := db1.processed + 1 }
  { st with db := db2 }

/-- Restore one salary record with its line items. -/
def restoreSalaryRecord (st : AccountState) (r : Json) : AccountState :=
  let db := st.db
  let rid := db.nextId
  let db1 := { db with
    salaryRecords := db.salaryRecords ++
      [(⟨rid, jsFieldNat r (S "month"), jsFieldInt r (S "year"),
         jsFieldStr r (S "organization"), jsFieldNum r (S "total_earnings"),
         jsFieldNum r (S "total_deductions"), jsFieldNum r (S "net_salary"),
         jsFieldNum r (S "gross_salary")⟩ : SalaryRow)],
    nextId := db.nextId + 1 }
  let db2 := { db1 with
    earnings := db1.earnings ++
      (jsFieldArr r (S "earnings")).map
        (fun e => (⟨rid, jsFieldStr e (S "category"), jsFieldNum e (S "amount")⟩ : ItemRow)),
    deductions := db1.deductions ++
      (jsFieldArr r (S "deductions")).map
        (fun d => (⟨rid, jsFieldStr d (S "category"), jsFieldNum d (S "amount")⟩ : ItemRow)),
    processed := db1.processed + 1 }
  { st with db := db2 }

/-- `performBackupImport` after confirmation: wipe all salary data, delete the
    budget history, then recreate every entity from the backup in sequence. -/
def performBackupImport (st : AccountState) (data : Json) : AccountState :=
  let st1 := { st with db := wipeAllSalaryData st.db }
  let st2 := { st1 with budgetHistory := [] }
  let st3 := (jsFieldArr data (S "organizationTemplates")).foldl restoreTemplate st2
  let st4 := (jsFieldArr data (S "salaryRecords")).foldl restoreSalaryRecord st3
  let st5 := { st4 with
    employmentHistory := st4.employmentHistory ++ jsFieldArr data (S "employmentHistory"),
    budgetHistory := st4.budgetHistory ++ jsFieldArr data (S "budgetHistory") }
  match jsGetField data (S "profile") with
  | some p => if jsTypeofObject p && jsTruthy p then { st5 with profile := some p } else st5
  | none => st5

/-- The two-phase backup import flow: validate the file, then — only when the
    user confirms — run the destructive restore. Returns the resulting state
    and the error message shown when the file is rejected. -/
def backupFlow (f : BackupFile) (confirm : Bool) (st : AccountState) :
    AccountState × Option Str :=
  match backupFileCheck f with
  | .error msg => (st, some msg)
  | .ok data => if confirm then (performBackupImport st data, none) else (st, none)

end Insight

namespace Insight

example : parseMonthYear (S "JAN 2025") = some (1, 2025) := by decide
example : parseMonthYear (S "  feb 1999 ") = some (2, 1999) := by decide
example : parseMonthYear (S "JAN 25") = some (1, 25) := by decide
example : parseMonthYear (S "JANUARY 2025") = none := by decide
example : parseMonthYear (S "JAN  2025") = none := by decide
example : parseIntJS (S "0x10") = some 16 := by decide
example : parseIntJS (S "2025abc") = some 2025 := by decide
example : parseIntJS (S "0x") = none := by decide
example : parseIntJS (S "0xZ") = none := by decide
example : parseIntJS (S "0") = some 0 := by decide
example : parseMonthYear (S "JAN 0x") = none := by decide
example : coerceNum (some (.str (S "Rs 1,234.50"))) = some (Rat.divInt 2469 2) := by decide
example : coerceNum (some (.str (S "abc"))) = none := by decide
example : coerceNum (some (.str (S "+-3"))) = none := by decide

/-- The worked TCS example row of the specification, as a codec row. -/
def tcsExampleRow : Row :=
  [(S "Month Year", .str (S "JAN 2025")),
   (S "Basic Salary", .num 80000),
   (S "HRA", .num 32000),
   (S "Income Tax", .num 18000),
   (S "Provident Fund", .num 9600),
   (S "Total Earnings", .num 112000),
   (S "Total Deductions", .num 27600),
   (S "Net Salary", .num 84400)]

example :
    processSheet [tcsExampleRow] (S "TCS") =
      ⟨[⟨S "TCS", 1, 2025,
         [⟨S "Basic Salary", 80000⟩, ⟨S "HRA", 32000⟩],
         [⟨S "Income Tax", 18000⟩, ⟨S "Provident Fund", 9600⟩],
         112000, 27600, 84400⟩], 0, []⟩ := by decide

example :
    processSheet [[(S "Month Year", .str (S ""))]] (S "ACME") =
      ⟨[], 1, [⟨S "ACME", 2, S "Missing Month/Year value"⟩]⟩ := by decide

/-! ### Helper lemmas on the row loop and the sheet loop -/

/-- Componentwise combination of two partial sheet results. -/
def combineRes (a b : SheetResult) : SheetResult :=
  ⟨a.records ++ b.records, a.skippedRows + b.skippedRows, a.invalidRows ++ b.invalidRows⟩

theorem processSheetGo_cons (headers : List Str) (mYH org : Str) (i : ℕ)
    (row : Row) (rest : List Row) :
    processSheetGo headers mYH org i (row :: rest) =
      match rowOutcome headers mYH org row with
      | .ok rec =>
        ⟨rec :: (processSheetGo headers mYH org (i + 1) rest).records,
         (processSheetGo headers mYH org (i + 1) rest).skippedRows,
         (processSheetGo headers mYH org (i + 1) rest).invalidRows⟩
      | .error reason =>
        ⟨(processSheetGo headers mYH org (i + 1) rest).records,
         (processSheetGo headers mYH org (i + 1) rest).skippedRows + 1,
         ⟨org, i + 2, reason⟩ :: (processSheetGo headers mYH org (i + 1) rest).invalidRows⟩ :=
  rfl

theorem processSheetGo_append (headers : List Str) (mYH org : Str) (i : ℕ)
    (xs ys : List Row) :
    processSheetGo headers mYH org i (xs ++ ys) =
      combineRes (processSheetGo headers mYH org i xs)
        (processSheetGo headers mYH org (i + xs.length) ys) := by
  induction xs generalizing i with
  | nil => simp [processSheetGo, combineRes]
  | cons x xs ih =>
    have hidx : i + 1 + xs.length = i + (xs.length + 1) := by omega
    show processSheetGo headers mYH org i (x :: (xs ++ ys)) = _
    rw [processSheetGo_cons, processSheetGo_cons, ih (i + 1), hidx]
    cases h : rowOutcome headers mYH org x with
    | ok rec => simp [combineRes]
    | error reason => simp [combineRes]; omega

/-- Every skipped row contributes exactly one invalid-row diagnostic. -/
theorem processSheetGo_skipped_eq_invalid (headers : List Str) (mYH org : Str) :
    ∀ (i : ℕ) (rows : List Row),
      (processSheetGo headers mYH org i rows).skippedRows =
        (processSheetGo headers mYH org i rows).invalidRows.length := by
  intro i rows
  induction rows generalizing i with
  | nil => rfl
  | cons row rest ih =>
    rw [processSheetGo_cons]
    cases rowOutcome headers mYH org row <;> simp [ih (i + 1)]

theorem processSheet_skipped_eq_invalid (rows : List Row) (org : Str) :
    (processSheet rows org).skippedRows = (processSheet rows org).invalidRows.length := by
  cases rows with
  | nil => rfl
  | cons r0 rest => exact processSheetGo_skipped_eq_invalid _ _ _ _ _

/-- The sheet plan a workbook sheet contributes to the import plan, if any. -/
def keptSheet (sheet : Str × List Row) : Option SheetPlan :=
  let res := processSheet sheet.2 sheet.1
  if res.records.isEmpty && res.invalidRows.isEmpty then none
  else some ⟨sheet.1, res.records, res.skippedRows⟩

theorem buildImportPlan_foldl_inv (wb : List (Str × List Row)) :
    ∀ (plan : ImportPlan),
      wb.foldl
        (fun plan sheet =>
          let res := processSheet sheet.2 sheet.1
          if res.records.isEmpty && res.invalidRows.isEmpty then plan
          else
            ⟨plan.sheets ++ [⟨sheet.1, res.records, res.skippedRows⟩],
             plan.totalRecordsToImport + res.records.length,
             plan.totalSkippedRows + res.skippedRows,
             plan.invalidRows ++ res.invalidRows⟩)
        plan =
      ⟨plan.sheets ++ wb.filterMap keptSheet,
       plan.totalRecordsToImport + ((wb.filterMap keptSheet).map (fun s => s.records.length)).sum,
       plan.totalSkippedRows + ((wb.filterMap keptSheet).map SheetPlan.skippedRows).sum,
       plan.invalidRows ++ wb.flatMap (fun sheet => (processSheet sheet.2 sheet.1).invalidRows)⟩ := by
  induction wb with
  | nil => intro plan; simp [keptSheet]
  | cons sheet rest ih =>
    intro plan
    simp only [List.foldl_cons, List.filterMap_cons, List.flatMap_cons]
    by_cases h : ((processSheet sheet.2 sheet.1).records.isEmpty &&
        (processSheet sheet.2 sheet.1).invalidRows.isEmpty) = true
    · have hinv : (processSheet sheet.2 sheet.1).invalidRows = [] := by
        rcases Bool.and_eq_true_iff.mp h with ⟨-, h2⟩
        exact List.isEmpty_iff.mp h2
      rw [if_pos h, ih plan, keptSheet, if_pos h, hinv]
      simp
    · rw [if_neg h, ih, keptSheet, if_neg h]
      simp only [ImportPlan.mk.injEq]
      refine ⟨by simp, by simp; omega, by simp; omega, by simp⟩

theorem buildImportPlan_eq (wb : List (Str × List Row)) :
    buildImportPlan wb =
      ⟨wb.filterMap keptSheet,
       ((wb.filterMap keptSheet).map (fun s => s.records.length)).sum,
       ((wb.filterMap keptSheet).map SheetPlan.skippedRows).sum,
       wb.flatMap (fun sheet => (processSheet sheet.2 sheet.1).invalidRows)⟩ := by
  have h := buildImportPlan_foldl_inv wb ⟨[], 0, 0, []⟩
  simpa [buildImportPlan] using h

/-! ### Claim C7 -/

/-- **C7.** A data row whose Month/Year cell is missing or the empty string
    yields exactly one `InvalidRow` with reason "Missing Month/Year value" and
    excel row number `i + 2` for the `i`-th (0-indexed) data row, bumps
    `skippedRows` by one, and contributes nothing to `records`: the sheet result
    decomposes into the contributions of the earlier rows, this one diagnostic,
    and the later rows. -/
theorem c7_missing_month_year_row (rows : List Row) (org : Str) (i : ℕ)
    (hi : i < rows.length)
    (hcell :
      rowGet (rows.get ⟨i, hi⟩)
          (findMonthYearHeader ((rows.headD []).map Prod.fst)) = none ∨
      rowGet (rows.get ⟨i, hi⟩)
          (findMonthYearHeader ((rows.headD []).map Prod.fst)) = some (.str [])) :
    processSheet rows org =
      ⟨(processSheetGo ((rows.headD []).map Prod.fst)
          (findMonthYearHeader ((rows.headD []).map Prod.fst)) org 0 (rows.take i)).records ++
        (processSheetGo ((rows.headD []).map Prod.fst)
          (findMonthYearHeader ((rows.headD []).map Prod.fst)) org (i + 1)
          (rows.drop (i + 1))).records,
       ((processSheetGo ((rows.headD []).map Prod.fst)
          (findMonthYearHeader ((rows.headD []).map Prod.fst)) org 0 (rows.take i)).skippedRows + 1) +
        (processSheetGo ((rows.headD []).map Prod.fst)
          (findMonthYearHeader ((rows.headD []).map Prod.fst)) org (i + 1)
          (rows.drop (i + 1))).skippedRows,
       (processSheetGo ((rows.headD []).map Prod.fst)
          (findMonthYearHeader ((rows.headD []).map Prod.fst)) org 0 (rows.take i)).invalidRows ++
        ⟨org, i + 2, S "Missing Month/Year value"⟩ ::
        (processSheetGo ((rows.headD []).map Prod.fst)
          (findMonthYearHeader ((rows.headD []).map Prod.fst)) org (i + 1)
          (rows.drop (i + 1))).invalidRows⟩ := by
  have hne : rows ≠ [] := List.ne_nil_of_length_pos (Nat.lt_of_le_of_lt (Nat.zero_le _) hi)
  obtain ⟨r0, rest, hrows⟩ := List.exists_cons_of_ne_nil hne
  set headers := (rows.headD []).map Prod.fst with hH
  set mYH := findMonthYearHeader headers with hM
  have hsplit : rows = rows.take i ++ rows.get ⟨i, hi⟩ :: rows.drop (i + 1) := by
    conv_lhs => rw [← List.take_append_drop i rows]
    rw [List.get_eq_getElem, List.getElem_cons_drop]
  have houtcome : rowOutcome headers mYH org (rows.get ⟨i, hi⟩) =
      .error (S "Missing Month/Year value") := by
    simp only [List.get_eq_getElem] at hcell ⊢
    rcases hcell with h | h <;> simp [rowOutcome, h, cellTruthy, S]
  have hlen : (rows.take i).length = i := List.length_take_of_le (Nat.le_of_lt hi)
  have hgo : processSheetGo headers mYH org 0 rows =
      combineRes (processSheetGo headers mYH org 0 (rows.take i))
        (processSheetGo headers mYH org i (rows.get ⟨i, hi⟩ :: rows.drop (i + 1))) := by
    conv_lhs => rw [hsplit]
    rw [processSheetGo_append]
    simp [hlen]
  have hmid : processSheetGo headers mYH org i (rows.get ⟨i, hi⟩ :: rows.drop (i + 1)) =
      ⟨(processSheetGo headers mYH org (i + 1) (rows.drop (i + 1))).records,
       (processSheetGo headers mYH org (i + 1) (rows.drop (i + 1))).skippedRows + 1,
       ⟨org, i + 2, S "Missing Month/Year value"⟩ ::
         (processSheetGo headers mYH org (i + 1) (rows.drop (i + 1))).invalidRows⟩ := by
    rw [processSheetGo_cons, houtcome]
  have hps : processSheet rows org = processSheetGo headers mYH org 0 rows := by
    rw [hrows]
    simp only [processSheet, hH, hM, hrows, List.headD_cons]
  rw [hps, hgo, hmid]
  simp [combineRes]
  omega

/-- Witness for C7 at a concrete sheet: one valid row, then a row with an empty
    Month/Year cell, then another valid row. -/
theorem c7_missing_month_year_row_witness :
    processSheet
        [[(S "Month Year", .str (S "JAN 2025")), (S "Basic", .num 10)],
         [(S "Month Year", .str (S ""))],
         [(S "Month Year", .str (S "FEB 2025")), (S "Basic", .num 20)]]
        (S "ACME") =
      ⟨(processSheetGo [S "Month Year", S "Basic"] (S "Month Year") (S "ACME") 0
          [[(S "Month Year", .str (S "JAN 2025")), (S "Basic", .num 10)]]).records ++
        (processSheetGo [S "Month Year", S "Basic"] (S "Month Year") (S "ACME") 2
          [[(S "Month Year", .str (S "FEB 2025")), (S "Basic", .num 20)]]).records,
       ((processSheetGo [S "Month Year", S "Basic"] (S "Month Year") (S "ACME") 0
          [[(S "Month Year", .str (S "JAN 2025")), (S "Basic", .num 10)]]).skippedRows + 1) +
        (processSheetGo [S "Month Year", S "Basic"] (S "Month Year") (S "ACME") 2
          [[(S "Month Year", .str (S "FEB 2025")), (S "Basic", .num 20)]]).skippedRows,
       (processSheetGo [S "Month Year", S "Basic"] (S "Month Year") (S "ACME") 0
          [[(S "Month Year", .str (S "JAN 2025")), (S "Basic", .num 10)]]).invalidRows ++
        ⟨S "ACME", 3, S "Missing Month/Year value"⟩ ::
        (processSheetGo [S "Month Year", S "Basic"] (S "Month Year") (S "ACME") 2
          [[(S "Month Year", .str (S "FEB 2025")), (S "Basic", .num 20)]]).invalidRows⟩ := by
  have h := c7_missing_month_year_row
    [[(S "Month Year", .str (S "JAN 2025")), (S "Basic", .num 10)],
     [(S "Month Year", .str (S ""))],
     [(S "Month Year", .str (S "FEB 2025")), (S "Basic", .num 20)]]
    (S "ACME") 1 (by decide) (Or.inr (by decide))
  simpa using h

/-! ### Claim C10 -/

/-- **C10.** Internal consistency of every built import plan: per-sheet
    `skippedRows` equals the number of invalid-row diagnostics of that sheet;
    `totalRecordsToImport` and `totalSkippedRows` are the sums over the plan's
    sheets; and `invalidRows` is the concatenation of the sheets' invalid-row
    lists in sheet order. -/
theorem c10_plan_internal_consistency :
    (∀ (rows : List Row) (org : Str),
      (processSheet rows org).skippedRows = (processSheet rows org).invalidRows.length) ∧
    (∀ wb : List (Str × List Row),
      (buildImportPlan wb).totalRecordsToImport =
        ((buildImportPlan wb).sheets.map (fun s => s.records.length)).sum) ∧
    (∀ wb : List (Str × List Row),
      (buildImportPlan wb).totalSkippedRows =
        ((buildImportPlan wb).sheets.map SheetPlan.skippedRows).sum) ∧
    (∀ wb : List (Str × List Row),
      (buildImportPlan wb).invalidRows =
        wb.flatMap (fun sheet => (processSheet sheet.2 sheet.1).invalidRows)) := by
  refine ⟨processSheet_skipped_eq_invalid, ?_, ?_, ?_⟩ <;>
    intro wb <;> rw [buildImportPlan_eq]

/-! ### Characterization of the per-row column loop -/

/-- The line item (with its bucket) a single column contributes, if any:
    the functional summary of one `stepHeader` iteration's push. -/
def colItem (orgE orgD reserved : List Str) (row : Row) (h : Str) :
    Option (ColKind × LineItem) :=
  match coerceNum (rowGet row h) with
  | none => none
  | some v =>
    if h = TOTAL_EARNINGS_HEADER then none
    else if h = TOTAL_DEDUCTIONS_HEADER then none
    else if h = NET_SALARY_HEADER then none
    else if h ∈ reserved || v = 0 then none
    else some (classifyColumn orgE orgD h, ⟨h, v⟩)

/-- The earning item of a column, if any. -/
def colEarnItem (orgE orgD reserved : List Str) (row : Row) (h : Str) : Option LineItem :=
  match colItem orgE orgD reserved row h with
  | some (.earning, it) => some it
  | _ => none

/-- The deduction item of a column, if any. -/
def colDedItem (orgE orgD reserved : List Str) (row : Row) (h : Str) : Option LineItem :=
  match colItem orgE orgD reserved row h with
  | some (.deduction, it) => some it
  | _ => none

theorem foldl_stepHeader_earnings (orgE orgD reserved : List Str) (row : Row) :
    ∀ (hs : List Str) (acc : RowAcc),
      (hs.foldl (stepHeader orgE orgD reserved row) acc).earnings =
        acc.earnings ++ hs.filterMap (colEarnItem orgE orgD reserved row) := by
  intro hs
  induction hs with
  | nil => intro acc; simp
  | cons h hs ih =>
    intro acc
    rw [List.foldl_cons, List.filterMap_cons, ih]
    rcases hc : coerceNum (rowGet row h) with - | v
    · simp [stepHeader, colEarnItem, colItem, hc]
    · by_cases h1 : h = TOTAL_EARNINGS_HEADER
      · subst h1; simp [stepHeader, colEarnItem, colItem, hc]
      by_cases h2 : h = TOTAL_DEDUCTIONS_HEADER
      · subst h2; simp [stepHeader, colEarnItem, colItem, hc, h1]
      by_cases h3 : h = NET_SALARY_HEADER
      · subst h3; simp [stepHeader, colEarnItem, colItem, hc, h1, h2]
      by_cases h4 : (h ∈ reserved || v = 0) = true
      · simp [stepHeader, colEarnItem, colItem, hc, h1, h2, h3, h4]
      · rcases hcl : classifyColumn orgE orgD h with - | - <;>
          simp [stepHeader, colEarnItem, colItem, hc, h1, h2, h3, h4, hcl]

theorem foldl_stepHeader_deductions (orgE orgD reserved : List Str) (row : Row) :
    ∀ (hs : List Str) (acc : RowAcc),
      (hs.foldl (stepHeader orgE orgD reserved row) acc).deductions =
        acc.deductions ++ hs.filterMap (colDedItem orgE orgD reserved row) := by
  intro hs
  induction hs with
  | nil => intro acc; simp
  | cons h hs ih =>
    intro acc
    rw [List.foldl_cons, List.filterMap_cons, ih]
    rcases hc : coerceNum (rowGet row h) with - | v
    · simp [stepHeader, colDedItem, colItem, hc]
    · by_cases h1 : h = TOTAL_EARNINGS_HEADER
      · subst h1; simp [stepHeader, colDedItem, colItem, hc]
      by_cases h2 : h = TOTAL_DEDUCTIONS_HEADER
      · subst h2; simp [stepHeader, colDedItem, colItem, hc, h1]
      by_cases h3 : h = NET_SALARY_HEADER
      · subst h3; simp [stepHeader, colDedItem, colItem, hc, h1, h2]
      by_cases h4 : (h ∈ reserved || v = 0) = true
      · simp [stepHeader, colDedItem, colItem, hc, h1, h2, h3, h4]
      · rcases hcl : classifyColumn orgE orgD h with - | - <;>
          simp [stepHeader, colDedItem, colItem, hc, h1, h2, h3, h4, hcl]

theorem parseRowBody_earnings (orgE orgD reserved : List Str) (row : Row)
    (headers : List Str) :
    (parseRowBody orgE orgD reserved row headers).earnings =
      headers.filterMap (colEarnItem orgE orgD reserved row) := by
  rw [parseRowBody, foldl_stepHeader_earnings]
  rfl

theorem parseRowBody_deductions (orgE orgD reserved : List Str) (row : Row)
    (headers : List Str) :
    (parseRowBody orgE orgD reserved row headers).deductions =
      headers.filterMap (colDedItem orgE orgD reserved row) := by
  rw [parseRowBody, foldl_stepHeader_deductions]
  rfl

/-- Provenance of an earning item: it comes from a header equal to its category,
    whose cell coerces to its (non-zero) amount, and which classifies `earning`. -/
theorem colEarnItem_inv (orgE orgD reserved : List Str) (row : Row) (h : Str)
    (it : LineItem) (hit : colEarnItem orgE orgD reserved row h = some it) :
    it.category = h ∧ coerceNum (rowGet row h) = some it.amount ∧ it.amount ≠ 0 ∧
      h ∉ reserved ∧ classifyColumn orgE orgD h = .earning := by
  unfold colEarnItem colItem at hit
  rcases hc : coerceNum (rowGet row h) with - | v <;> rw [hc] at hit
  · simp at hit
  · by_cases h1 : h = TOTAL_EARNINGS_HEADER
    · simp [h1] at hit
    by_cases h2 : h = TOTAL_DEDUCTIONS_HEADER
    · simp [h1, h2] at hit
    by_cases h3 : h = NET_SALARY_HEADER
    · simp [h1, h2, h3] at hit
    by_cases h4 : (h ∈ reserved || v = 0) = true
    · simp [h1, h2, h3, h4] at hit
    · rcases hcl : classifyColumn orgE orgD h with - | - <;>
        simp [h1, h2, h3, h4, hcl] at hit
      · obtain rfl : it = ⟨h, v⟩ := by
          cases it
          simp_all
        simp only [Bool.or_eq_true, decide_eq_true_eq, not_or] at h4
        exact ⟨rfl, rfl, h4.2, h4.1, rfl⟩

/-- Provenance of a deduction item. -/
theorem colDedItem_inv (orgE orgD reserved : List Str) (row : Row) (h : Str)
    (it : LineItem) (hit : colDedItem orgE orgD reserved row h = some it) :
    it.category = h ∧ coerceNum (rowGet row h) = some it.amount ∧ it.amount ≠ 0 ∧
      h ∉ reserved ∧ classifyColumn orgE orgD h = .deduction := by
  unfold colDedItem colItem at hit
  rcases hc : coerceNum (rowGet row h) with - | v <;> rw [hc] at hit
  · simp at hit
  · by_cases h1 : h = TOTAL_EARNINGS_HEADER
    · simp [h1] at hit
    by_cases h2 : h = TOTAL_DEDUCTIONS_HEADER
    · simp [h1, h2] at hit
    by_cases h3 : h = NET_SALARY_HEADER
    · simp [h1, h2, h3] at hit
    by_cases h4 : (h ∈ reserved || v = 0) = true
    · simp [h1, h2, h3, h4] at hit
    · rcases hcl : classifyColumn orgE orgD h with - | - <;>
        simp [h1, h2, h3, h4, hcl] at hit
      · obtain rfl : it = ⟨h, v⟩ := by
          cases it
          simp_all
        simp only [Bool.or_eq_true, decide_eq_true_eq, not_or] at h4
        exact ⟨rfl, rfl, h4.2, h4.1, rfl⟩

/-- Every record of a sheet result comes from some row with an `ok` outcome. -/
theorem processSheetGo_records_mem (headers : List Str) (mYH org : Str) :
    ∀ (i : ℕ) (rows : List Row) (r : ParsedRecord),
      r ∈ (processSheetGo headers mYH org i rows).records →
      ∃ row ∈ rows, rowOutcome headers mYH org row = .ok r := by
  intro i rows
  induction rows generalizing i with
  | nil => intro r hr; simp [processSheetGo] at hr
  | cons row rest ih =>
    intro r hr
    rw [processSheetGo_cons] at hr
    cases hout : rowOutcome headers mYH org row with
    | ok rec =>
      rw [hout] at hr
      simp only at hr
      rcases List.mem_cons.mp hr with rfl | hr
      · exact ⟨row, List.mem_cons_self .., hout⟩
      · obtain ⟨row', hrow', h'⟩ := ih (i + 1) r hr
        exact ⟨row', List.mem_cons_of_mem _ hrow', h'⟩
    | error reason =>
      rw [hout] at hr
      simp only at hr
      obtain ⟨row', hrow', h'⟩ := ih (i + 1) r hr
      exact ⟨row', List.mem_cons_of_mem _ hrow', h'⟩

/-- A record produced by the row parser carries the sheet's organization and the
    line-item lists of the column loop. -/
theorem rowOutcome_ok_inv (headers : List Str) (mYH org : Str) (row : Row)
    (r : ParsedRecord) (hok : rowOutcome headers mYH org row = .ok r) :
    r.organization = org ∧
    r.earnings =
      (parseRowBody (ORG_EARNINGS org) (ORG_DEDUCTIONS org) (reservedHeaders mYH)
        row headers).earnings ∧
    r.deductions =
      (parseRowBody (ORG_EARNINGS org) (ORG_DEDUCTIONS org) (reservedHeaders mYH)
        row headers).deductions := by
  unfold rowOutcome at hok
  split at hok
  · exact Except.noConfusion hok
  · split at hok
    · exact Except.noConfusion hok
    · split at hok
      · exact Except.noConfusion hok
      · simp only [Except.ok.injEq] at hok
        subst hok
        exact ⟨rfl, rfl, rfl⟩

/-- Every line item of a record produced by a sheet parse has a non-zero amount
    (shared by several claims). -/
theorem record_items_nonzero (rows : List Row) (org : Str) (r : ParsedRecord)
    (hr : r ∈ (processSheet rows org).records) :
    (∀ it ∈ r.earnings, it.amount ≠ 0) ∧ (∀ it ∈ r.deductions, it.amount ≠ 0) := by
  have hmem : ∃ row ∈ rows, rowOutcome ((rows.headD []).map Prod.fst)
      (findMonthYearHeader ((rows.headD []).map Prod.fst)) org row = .ok r := by
    cases rows with
    | nil => simp [processSheet] at hr
    | cons r0 rest =>
      exact processSheetGo_records_mem _ _ _ 0 _ r hr
  obtain ⟨row, -, hok⟩ := hmem
  obtain ⟨-, he, hd⟩ := rowOutcome_ok_inv _ _ _ _ _ hok
  constructor
  · intro it hit
    rw [he, parseRowBody_earnings] at hit
    obtain ⟨h, -, hsome⟩ := List.mem_filterMap.mp hit
    exact (colEarnItem_inv _ _ _ _ _ _ hsome).2.2.1
  · intro it hit
    rw [hd, parseRowBody_deductions] at hit
    obtain ⟨h, -, hsome⟩ := List.mem_filterMap.mp hit
    exact (colDedItem_inv _ _ _ _ _ _ hsome).2.2.1

/-! ### Claim C6 -/

/-- **C6.** Zero or uncoercible cells never become line items: every line item
    of every parsed record of every sheet has a non-zero amount, and a column
    whose cell coerces to `null` or `0` appears in neither the earnings nor the
    deductions of the row's parsed result. -/
theorem c6_zero_and_unparsable_cells_excluded :
    (∀ (rows : List Row) (org : Str) (r : ParsedRecord),
      r ∈ (processSheet rows org).records →
      (∀ it ∈ r.earnings, it.amount ≠ 0) ∧ (∀ it ∈ r.deductions, it.amount ≠ 0)) ∧
    (∀ (orgE orgD reserved : List Str) (row : Row) (headers : List Str) (h : Str),
      (coerceNum (rowGet row h) = none ∨ coerceNum (rowGet row h) = some 0) →
      ∀ v : ℚ,
        (⟨h, v⟩ : LineItem) ∉ (parseRowBody orgE orgD reserved row headers).earnings ∧
        (⟨h, v⟩ : LineItem) ∉ (parseRowBody orgE orgD reserved row headers).deductions) := by
  constructor
  · exact record_items_nonzero
  · intro orgE orgD reserved row headers h hcell v
    constructor
    · intro hmem
      rw [parseRowBody_earnings] at hmem
      obtain ⟨h', -, hsome⟩ := List.mem_filterMap.mp hmem
      obtain ⟨hcat, hval, hnz, -, -⟩ := colEarnItem_inv _ _ _ _ _ _ hsome
      simp only at hcat
      subst hcat
      rcases hcell with hc | hc <;> rw [hc] at hval
      · exact Option.noConfusion hval
      · exact hnz (by simpa using (Option.some.injEq _ _ ▸ hval).symm)
    · intro hmem
      rw [parseRowBody_deductions] at hmem
      obtain ⟨h', -, hsome⟩ := List.mem_filterMap.mp hmem
      obtain ⟨hcat, hval, hnz, -, -⟩ := colDedItem_inv _ _ _ _ _ _ hsome
      simp only at hcat
      subst hcat
      rcases hcell with hc | hc <;> rw [hc] at hval
      · exact Option.noConfusion hval
      · exact hnz (by simpa using (Option.some.injEq _ _ ▸ hval).symm)

/-- Witness for C6 at a concrete sheet and cell. -/
theorem c6_zero_and_unparsable_cells_excluded_witness :
    ((∀ it ∈ ((processSheet [tcsExampleRow] (S "TCS")).records.headD
        ⟨[], 0, 0, [], [], 0, 0, 0⟩).earnings, it.amount ≠ 0) ∧
     ∀ v : ℚ, (⟨S "Empty", v⟩ : LineItem) ∉
       (parseRowBody [] [] (reservedHeaders (S "Month Year"))
         [(S "Month Year", .str (S "JAN 2025")), (S "Empty", .num 0)]
         [S "Month Year", S "Empty"]).earnings) := by
  constructor
  · intro it hit
    exact ((c6_zero_and_unparsable_cells_excluded.1 [tcsExampleRow] (S "TCS") _
      (by decide)).1) it hit
  · intro v
    exact (c6_zero_and_unparsable_cells_excluded.2 [] [] (reservedHeaders (S "Month Year"))
      [(S "Month Year", .str (S "JAN 2025")), (S "Empty", .num 0)]
      [S "Month Year", S "Empty"] (S "Empty") (Or.inr (by decide)) v).1

/-! ### Claim C5 -/

/-- One non-reserved numeric column's contribution, fully evaluated. -/
theorem colItem_eval (orgE orgD reserved : List Str) (row : Row) (h : Str) (v : ℚ)
    (hval : coerceNum (rowGet row h) = some v) (hv : v ≠ 0)
    (hres : h ∉ reserved)
    (h1 : h ≠ TOTAL_EARNINGS_HEADER) (h2 : h ≠ TOTAL_DEDUCTIONS_HEADER)
    (h3 : h ≠ NET_SALARY_HEADER) :
    colItem orgE orgD reserved row h = some (classifyColumn orgE orgD h, ⟨h, v⟩) := by
  simp [colItem, hval, h1, h2, h3, hres, hv]

/-- **C5.** The column classifier applies its checks in the source's fixed order
    with first match winning, as observed through the parsed row: for a
    non-reserved header with a non-zero numeric value, an exact earning-list
    match lands in earnings (even when a deduction keyword also matches), else
    an exact deduction-list match lands in deductions, else a keyword match
    lands in deductions, else the column defaults to earnings. -/
theorem c5_classification_order (orgE orgD : List Str) (mYH : Str) (row : Row)
    (headers : List Str) (h : Str) (v : ℚ)
    (hmem : h ∈ headers)
    (hval : coerceNum (rowGet row h) = some v) (hv : v ≠ 0)
    (hres : h ∉ reservedHeaders mYH) :
    (h ∈ orgE →
      (⟨h, v⟩ : LineItem) ∈
        (parseRowBody orgE orgD (reservedHeaders mYH) row headers).earnings) ∧
    (h ∉ orgE → h ∈ orgD →
      (⟨h, v⟩ : LineItem) ∈
        (parseRowBody orgE orgD (reservedHeaders mYH) row headers).deductions) ∧
    (h ∉ orgE → h ∉ orgD → isDeductionHeader h = true →
      (⟨h, v⟩ : LineItem) ∈
        (parseRowBody orgE orgD (reservedHeaders mYH) row headers).deductions) ∧
    (h ∉ orgE → h ∉ orgD → isDeductionHeader h = false →
      (⟨h, v⟩ : LineItem) ∈
        (parseRowBody orgE orgD (reservedHeaders mYH) row headers).earnings) := by
  have h1 : h ≠ TOTAL_EARNINGS_HEADER := by
    intro he; exact hres (by rw [he]; simp [reservedHeaders])
  have h2 : h ≠ TOTAL_DEDUCTIONS_HEADER := by
    intro he; exact hres (by rw [he]; simp [reservedHeaders])
  have h3 : h ≠ NET_SALARY_HEADER := by
    intro he; exact hres (by rw [he]; simp [reservedHeaders])
  have hcol := colItem_eval orgE orgD (reservedHeaders mYH) row h v hval hv hres h1 h2 h3
  refine ⟨?_, ?_, ?_, ?_⟩
  · intro hE
    have hcl : classifyColumn orgE orgD h = .earning := by simp [classifyColumn, hE]
    rw [parseRowBody_earnings]
    exact List.mem_filterMap.mpr ⟨h, hmem, by simp [colEarnItem, hcol, hcl]⟩
  · intro hE hD
    have hcl : classifyColumn orgE orgD h = .deduction := by simp [classifyColumn, hE, hD]
    rw [parseRowBody_deductions]
    exact List.mem_filterMap.mpr ⟨h, hmem, by simp [colDedItem, hcol, hcl]⟩
  · intro hE hD hkw
    have hcl : classifyColumn orgE orgD h = .deduction := by
      simp [classifyColumn, hE, hD, hkw]
    rw [parseRowBody_deductions]
    exact List.mem_filterMap.mpr ⟨h, hmem, by simp [colDedItem, hcol, hcl]⟩
  · intro hE hD hkw
    have hcl : classifyColumn orgE orgD h = .earning := by
      simp [classifyColumn, hE, hD, hkw]
    rw [parseRowBody_earnings]
    exact List.mem_filterMap.mpr ⟨h, hmem, by simp [colEarnItem, hcol, hcl]⟩

/-- Witness for C5: "Leave Encashment" is in TCS's earning list and also matches
    no deduction keyword check needed — exact match wins; and the unknown header
    "Team Outing Tax" falls to the keyword heuristic. -/
theorem c5_classification_order_witness :
    (⟨S "Leave Encashment", (5 : ℚ)⟩ : LineItem) ∈
      (parseRowBody (ORG_EARNINGS (S "TCS")) (ORG_DEDUCTIONS (S "TCS"))
        (reservedHeaders (S "Month Year"))
        [(S "Leave Encashment", .num 5), (S "Team Outing Tax", .num 7)]
        [S "Leave Encashment", S "Team Outing Tax"]).earnings ∧
    (⟨S "Team Outing Tax", (7 : ℚ)⟩ : LineItem) ∈
      (parseRowBody (ORG_EARNINGS (S "TCS")) (ORG_DEDUCTIONS (S "TCS"))
        (reservedHeaders (S "Month Year"))
        [(S "Leave Encashment", .num 5), (S "Team Outing Tax", .num 7)]
        [S "Leave Encashment", S "Team Outing Tax"]).deductions := by
  constructor
  · exact (c5_classification_order (ORG_EARNINGS (S "TCS")) (ORG_DEDUCTIONS (S "TCS"))
      (S "Month Year") _ _ _ 5 (by decide) (by decide) (by decide) (by decide)).1
      (by decide)
  · exact ((c5_classification_order (ORG_EARNINGS (S "TCS")) (ORG_DEDUCTIONS (S "TCS"))
      (S "Month Year") _ _ _ 7 (by decide) (by decide) (by decide) (by decide)).2.2.1)
      (by decide) (by decide) (by decide)

/-! ### Claim C9 -/

/-- **C9 counterexample.** A negative cell value becomes a negative line-item
    amount in the parsed record: the Row Parser does not enforce `amount ≥ 0`. -/
theorem c9_counterexample_negative_amount :
    (processSheet [[(S "Month Year", .str (S "JAN 2025")), (S "Bonus", .num (-5))]]
        (S "ACME")).records =
      [⟨S "ACME", 1, 2025, [⟨S "Bonus", -5⟩], [], 0, 0, 0⟩] ∧
    ((-5 : ℚ) < 0) := by
  constructor
  · decide
  · decide

/-- The executor skips (leaves the state untouched for) any record carrying a
    negative line-item amount. -/
theorem execRecord_skip_of_negative_item (db : DB) (r : ParsedRecord)
    (it : LineItem) (hneg : it.amount < 0)
    (hit : it ∈ r.earnings ∨ it ∈ r.deductions) :
    execRecord db r = db := by
  have hbad : lineItemsOk r = false := by
    rcases hit with hmem | hmem
    · unfold lineItemsOk
      rw [Bool.and_eq_false_iff]
      left
      rw [List.all_eq_false]
      exact ⟨it, hmem, by simp [not_le.mpr hneg]⟩
    · unfold lineItemsOk
      rw [Bool.and_eq_false_iff]
      right
      rw [List.all_eq_false]
      exact ⟨it, hmem, by simp [not_le.mpr hneg]⟩
  unfold execRecord
  rcases h1 : monthYearOk r
  · simp
  · rcases h2 : totalsOk r
    · simp
    · simp [hbad]

/-- **C9 (amended).** Every line item of every parsed record has a non-zero —
    but possibly negative — amount, and a record containing a negative
    line-item amount is skipped by the Import Executor instead of being written. -/
theorem c9_amended_items_nonzero_negatives_skipped (rows : List Row) (org : Str)
    (r : ParsedRecord) (hr : r ∈ (processSheet rows org).records) (it : LineItem)
    (hit : it ∈ r.earnings ∨ it ∈ r.deductions) :
    it.amount ≠ 0 ∧ (it.amount < 0 → ∀ db : DB, execRecord db r = db) := by
  have hnz := record_items_nonzero rows org r hr
  constructor
  · rcases hit with hmem | hmem
    · exact hnz.1 it hmem
    · exact hnz.2 it hmem
  · intro hneg db
    exact execRecord_skip_of_negative_item db r it hneg hit

/-- Witness for C9 (amended) at the concrete negative-amount sheet. -/
theorem c9_amended_items_nonzero_negatives_skipped_witness :
    ((-5 : ℚ) ≠ 0) ∧ execRecord emptyDB ⟨S "ACME", 1, 2025, [⟨S "Bonus", -5⟩], [], 0, 0, 0⟩ =
      emptyDB := by
  have h := c9_amended_items_nonzero_negatives_skipped
    [[(S "Month Year", .str (S "JAN 2025")), (S "Bonus", .num (-5))]] (S "ACME")
    ⟨S "ACME", 1, 2025, [⟨S "Bonus", -5⟩], [], 0, 0, 0⟩ (by decide)
    ⟨S "Bonus", -5⟩ (Or.inl (by decide))
  exact ⟨h.1, h.2 (by decide) emptyDB⟩

/-! ### Claim C3 -/

/-- **C3 counterexample.** A record whose `netSalary` exceeds the 100 000 000
    cap is written anyway: the executor bounds only the two declared totals and
    the line items, never `netSalary`. -/
theorem c3_counterexample_net_salary_unbounded :
    (execPlan emptyDB
        ⟨[⟨S "ACME", [⟨S "ACME", 1, 2025, [], [], 1000, 0, 150000000⟩], 0⟩], 1, 0, []⟩).salaryRecords =
      [⟨1, 1, 2025, S "ACME", 1000, 0, 150000000, 1000⟩] ∧
    ¬((150000000 : ℚ) ≤ MAX_AMOUNT) := by
  constructor
  · decide
  · decide

/-- The write-time bounds the specification's amended C3 ascribes to the
    executor: month and year in range, both declared totals in `[0, 10^8]`, and
    every line-item amount in `[0, 10^8]` — with `netSalary` unconstrained. -/
def specWriteOk (r : ParsedRecord) : Prop :=
  1 ≤ r.month ∧ r.month ≤ 12 ∧ MIN_YEAR ≤ r.year ∧ r.year ≤ MAX_YEAR ∧
  0 ≤ r.totalEarnings ∧ r.totalEarnings ≤ MAX_AMOUNT ∧
  0 ≤ r.totalDeductions ∧ r.totalDeductions ≤ MAX_AMOUNT ∧
  (∀ it ∈ r.earnings, 0 ≤ it.amount ∧ it.amount ≤ MAX_AMOUNT) ∧
  (∀ it ∈ r.deductions, 0 ≤ it.amount ∧ it.amount ≤ MAX_AMOUNT)

instance (r : ParsedRecord) : Decidable (specWriteOk r) := by
  unfold specWriteOk
  infer_instance

/-- The three code-side guards agree with the single spec-side predicate. -/
theorem guards_iff_specWriteOk (r : ParsedRecord) :
    (monthYearOk r && totalsOk r && lineItemsOk r) = true ↔ specWriteOk r := by
  unfold monthYearOk totalsOk lineItemsOk specWriteOk
  simp only [Bool.and_eq_true, decide_eq_true_eq, List.all_eq_true, and_assoc]
  tauto

/-- The executor never touches the state for a rejected record. -/
theorem execRecord_eq_of_not_specWriteOk (db : DB) (r : ParsedRecord)
    (h : ¬specWriteOk r) : execRecord db r = db := by
  rw [← guards_iff_specWriteOk] at h
  unfold execRecord
  rcases h1 : monthYearOk r
  · simp
  · rcases h2 : totalsOk r
    · simp
    · rcases h3 : lineItemsOk r
      · simp
      · exact absurd (by simp [h1, h2, h3]) h

/-- The record upsert leaves the progress counter alone. -/
theorem upsertSalaryRecord_processed (db : DB) (r : ParsedRecord) :
    (upsertSalaryRecord db r).1.processed = db.processed := by
  unfold upsertSalaryRecord
  split <;> rfl

/-- A record passing the spec-side bounds is written: the progress counter
    advances by exactly one. -/
theorem execRecord_processed_of_specWriteOk (db : DB) (r : ParsedRecord)
    (h : specWriteOk r) : (execRecord db r).processed = db.processed + 1 := by
  rw [← guards_iff_specWriteOk] at h
  rcases Bool.and_eq_true_iff.mp h with ⟨h12, h3⟩
  rcases Bool.and_eq_true_iff.mp h12 with ⟨h1, h2⟩
  unfold execRecord
  rw [h1, h2, h3]
  simp [upsertSalaryRecord_processed]

/-- **C3 (amended).** At write time the executor writes a plan record if and
    only if its month is in `[1,12]`, its year in `[2000,2100]`, and
    `totalEarnings`, `totalDeductions` and every line-item amount lie in
    `[0, 100 000 000]` — `netSalary` is NOT bounds-checked. A record failing
    these bounds is skipped as a whole with no persistence write at all, and the
    skip never interrupts the processing of the remaining records of the loop. -/
theorem c3_amended_write_iff_bounds :
    (∀ (db : DB) (r : ParsedRecord), ¬specWriteOk r → execRecord db r = db) ∧
    (∀ (db : DB) (r : ParsedRecord), specWriteOk r →
      (execRecord db r).processed = db.processed + 1 ∧ execRecord db r ≠ db) ∧
    (∀ (db : DB) (pre post : List ParsedRecord) (r : ParsedRecord),
      (pre ++ r :: post).foldl execRecord db =
        post.foldl execRecord (execRecord (pre.foldl execRecord db) r)) := by
  refine ⟨execRecord_eq_of_not_specWriteOk, ?_, ?_⟩
  · intro db r h
    have hp := execRecord_processed_of_specWriteOk db r h
    refine ⟨hp, fun heq => ?_⟩
    rw [heq] at hp
    omega
  · intro db pre post r
    rw [List.foldl_append, List.foldl_cons]

/-- Witness for C3 (amended): an out-of-bounds total is skipped wholesale; an
    in-bounds record bumps the processed counter. -/
theorem c3_amended_write_iff_bounds_witness :
    execRecord emptyDB ⟨S "ACME", 1, 2025, [], [], 200000000, 0, 0⟩ = emptyDB ∧
    (execRecord emptyDB ⟨S "ACME", 1, 2025, [⟨S "Basic", 100⟩], [], 100, 0, 100⟩).processed =
      emptyDB.processed + 1 := by
  refine ⟨c3_amended_write_iff_bounds.1 emptyDB _ (by decide), ?_⟩
  exact (c3_amended_write_iff_bounds.2.1 emptyDB _ (by decide)).1

/-! ### Claim C1 -/

/-- **C1 (code bug).** Re-importing a record for an existing
    `(user, month, year)` key upserts the salary record in place but inserts the
    new line items WITHOUT deleting the pre-existing ones: after the import the
    record's earnings are the old items followed by the new — not exactly the
    imported record's items. The template path directly above in the same
    function, and the manual-edit path (EditRecordDialog), both delete before
    reinserting; the record line-item path omits the delete. -/
theorem c1_stale_line_items_survive_reimport :
    (execPlan
        ⟨[], [], [], [⟨0, 1, 2025, S "ACME", 100, 0, 100, 100⟩],
         [⟨0, S "Old", 10⟩], [], 1, 0⟩
        ⟨[⟨S "ACME", [⟨S "ACME", 1, 2025, [⟨S "New", 20⟩], [], 50, 0, 50⟩], 0⟩], 1, 0, []⟩).earnings =
      [⟨0, S "Old", 10⟩, ⟨0, S "New", 20⟩] ∧
    (⟨0, S "Old", 10⟩ : ItemRow) ∈
      (execPlan
        ⟨[], [], [], [⟨0, 1, 2025, S "ACME", 100, 0, 100, 100⟩],
         [⟨0, S "Old", 10⟩], [], 1, 0⟩
        ⟨[⟨S "ACME", [⟨S "ACME", 1, 2025, [⟨S "New", 20⟩], [], 50, 0, 50⟩], 0⟩], 1, 0, []⟩).earnings ∧
    (execPlan
        ⟨[], [], [], [⟨0, 1, 2025, S "ACME", 100, 0, 100, 100⟩],
         [⟨0, S "Old", 10⟩], [], 1, 0⟩
        ⟨[⟨S "ACME", [⟨S "ACME", 1, 2025, [⟨S "New", 20⟩], [], 50, 0, 50⟩], 0⟩], 1, 0, []⟩).salaryRecords =
      [⟨0, 1, 2025, S "ACME", 50, 0, 50, 50⟩] := by
  refine ⟨by decide, by decide, by decide⟩

end Insight

namespace Insight

/-! ### Claim C8 -/

/-- **C8.** A backup file that is too large, unparsable, or whose parsed value
    does not have `version === 1` is rejected with an error message and causes
    no destructive action: the account state is returned unchanged whether or
    not the user would confirm. Moreover, for ANY file the destructive restore
    runs only on explicit confirmation: without it the state is untouched. -/
theorem c8_invalid_backup_rejected_without_writes :
    (∀ (f : BackupFile) (st : AccountState) (confirm : Bool),
      (MAX_BACKUP_FILE_SIZE < f.size ∨ f.parsed = none ∨
        (∀ j, f.parsed = some j → jsVersionIsOne j = false)) →
      (backupFlow f confirm st).1 = st ∧ (backupFlow f confirm st).2.isSome = true) ∧
    (∀ (f : BackupFile) (st : AccountState), (backupFlow f false st).1 = st) := by
  constructor
  · intro f st confirm h
    unfold backupFlow backupFileCheck
    by_cases hs : MAX_BACKUP_FILE_SIZE < f.size
    · simp [hs]
    · rcases hp : f.parsed with - | j
      · simp [hs, hp]
      · rcases h with h | h | h
        · exact absurd h hs
        · rw [hp] at h
          exact Option.noConfusion h
        · have hv := h j hp
          simp [hs, hp, hv]
  · intro f st
    cases hc : backupFileCheck f with
    | error msg => simp [backupFlow, hc]
    | ok data => simp [backupFlow, hc]

/-- Witness for C8 at a version-2 backup object and an account with data. -/
theorem c8_invalid_backup_rejected_without_writes_witness :
    (backupFlow ⟨0, some (Json.obj [(S "version", Json.num 2)])⟩ true
        ⟨⟨[], [], [], [⟨0, 1, 2025, S "ACME", 100, 0, 100, 100⟩], [], [], 1, 0⟩,
         [Json.null], [], none⟩).1 =
      ⟨⟨[], [], [], [⟨0, 1, 2025, S "ACME", 100, 0, 100, 100⟩], [], [], 1, 0⟩,
       [Json.null], [], none⟩ ∧
    (backupFlow ⟨0, some (Json.obj [(S "version", Json.num 2)])⟩ true
        ⟨⟨[], [], [], [⟨0, 1, 2025, S "ACME", 100, 0, 100, 100⟩], [], [], 1, 0⟩,
         [Json.null], [], none⟩).2.isSome = true := by
  exact c8_invalid_backup_rejected_without_writes.1 _ _ true
    (Or.inr (Or.inr (fun j hj => by cases hj; rfl)))

end Insight

namespace Insight

/-! ### Claim C4 -/

theorem splitSpace_ne_nil (r : Str) : splitSpace r ≠ [] := by
  cases r with
  | nil => simp [splitSpace]
  | cons c rest =>
    unfold splitSpace
    by_cases hc : c = ' '
    · simp [hc]
    · simp only [if_neg hc]
      cases h : splitSpace rest <;> simp

theorem splitSpace_no_space (a : Str) (ha : ' ' ∉ a) : splitSpace a = [a] := by
  induction a with
  | nil => rfl
  | cons c rest ih =>
    have hc : c ≠ ' ' := fun h => ha (h ▸ List.mem_cons_self ..)
    have hrest : ' ' ∉ rest := fun h => ha (List.mem_cons_of_mem _ h)
    unfold splitSpace
    rw [if_neg hc, ih hrest]

theorem splitSpace_append (a b : Str) (ha : ' ' ∉ a) :
    splitSpace (a ++ ' ' :: b) = a :: splitSpace b := by
  induction a with
  | nil => simp [splitSpace]
  | cons c rest ih =>
    have hc : c ≠ ' ' := fun h => ha (h ▸ List.mem_cons_self ..)
    have hrest : ' ' ∉ rest := fun h => ha (List.mem_cons_of_mem _ h)
    rw [List.cons_append]
    show (if c = ' ' then [] :: splitSpace (rest ++ ' ' :: b)
      else match splitSpace (rest ++ ' ' :: b) with
        | [] => [[c]]
        | p :: ps => (c :: p) :: ps) = _
    rw [if_neg hc, ih hrest]

theorem splitSpace_eq_single (r t : Str) (h : splitSpace r = [t]) :
    r = t ∧ ' ' ∉ t := by
  induction r generalizing t with
  | nil =>
    simp [splitSpace] at h
    subst h
    simp
  | cons c rest ih =>
    unfold splitSpace at h
    by_cases hc : c = ' '
    · rw [if_pos hc] at h
      simp only [List.cons.injEq] at h
      exact absurd h.2 (splitSpace_ne_nil rest)
    · rw [if_neg hc] at h
      rcases hs : splitSpace rest with - | ⟨p, ps⟩
      · exact absurd hs (splitSpace_ne_nil rest)
      · rw [hs] at h
        simp only [List.cons.injEq] at h
        obtain ⟨ht, hps⟩ := h
        have hrest := ih p (by rw [hs, hps])
        subst ht
        refine ⟨by rw [hrest.1], ?_⟩
        intro hmem
        rcases List.mem_cons.mp hmem with h' | h'
        · exact hc h'.symm
        · exact hrest.2 h'

theorem splitSpace_eq_pair (u t1 t2 : Str) (h : splitSpace u = [t1, t2]) :
    u = t1 ++ ' ' :: t2 ∧ ' ' ∉ t1 ∧ ' ' ∉ t2 := by
  induction u generalizing t1 with
  | nil => simp [splitSpace] at h
  | cons c rest ih =>
    unfold splitSpace at h
    by_cases hc : c = ' '
    · rw [if_pos hc] at h
      simp only [List.cons.injEq] at h
      obtain ⟨ht1, hrest⟩ := h
      obtain ⟨hr, hsp⟩ := splitSpace_eq_single rest t2 hrest
      subst ht1 hc hr
      exact ⟨rfl, by simp, hsp⟩
    · rw [if_neg hc] at h
      rcases hs : splitSpace rest with - | ⟨p, ps⟩
      · exact absurd hs (splitSpace_ne_nil rest)
      · rw [hs] at h
        simp only [List.cons.injEq] at h
        obtain ⟨ht1, hps⟩ := h
        have hrec := ih p (by rw [hs, hps])
        subst ht1
        obtain ⟨hu, hp, ht2⟩ := hrec
        refine ⟨by rw [hu]; rfl, ?_, ht2⟩
        intro hmem
        rcases List.mem_cons.mp hmem with h' | h'
        · exact hc h'.symm
        · exact hp h'

/-- **C4 counterexample.** `"JAN 25"` — a two-digit year — parses successfully
    to `(1, 25)`, although the claim requires exactly a 4-digit year; and the
    full month name `"JANUARY 2025"` is rejected although the claim admits
    month names. -/
theorem c4_counterexample_year_digits :
    parseMonthYear (S "JAN 25") = some (1, 25) ∧ (S "25").length ≠ 4 ∧
    parseMonthYear (S "JANUARY 2025") = none := by
  refine ⟨by decide, by decide, by decide⟩

/-- **C4 (amended).** A Month/Year cell string parses to a valid `(month, year)`
    exactly when its trimmed form is a month token and a year token separated by
    one single space, where the month token matches the fixed 12-entry 3-letter
    abbreviation table case-insensitively (full month names are rejected) and
    the year token is any string JS `parseInt` accepts (not necessarily 4
    digits). Any other non-empty string makes the row invalid with the raw
    string echoed in the reason. -/
theorem c4_amended_month_year_grammar :
    (∀ s : Str,
      (parseMonthYear s).isSome = true ↔
        ∃ t1 t2, strTrim s = t1 ++ ' ' :: t2 ∧ ' ' ∉ t1 ∧ ' ' ∉ t2 ∧
          strUpper t1 ∈ MONTH_TABLE.map Prod.fst ∧ (parseIntJS t2).isSome = true) ∧
    (∀ (headers : List Str) (mYH org : Str) (row : Row) (s : Str),
      rowGet row mYH = some (.str s) → s ≠ [] → parseMonthYear s = none →
      rowOutcome headers mYH org row =
        .error (S "Invalid Month/Year format: " ++ s)) := by
  constructor
  · intro s
    constructor
    · intro hsome
      unfold parseMonthYear at hsome
      rcases hs : splitSpace (strTrim s) with - | ⟨p0, ps⟩
      · exact absurd hs (splitSpace_ne_nil _)
      · rcases ps with - | ⟨p1, ps'⟩
        · rw [hs] at hsome; simp at hsome
        · rcases ps' with - | _
          · rw [hs] at hsome
            have hred : (match monthMapLookup (strUpper p0), parseIntJS p1 with
                | some m, some y => some ((m : ℕ), (y : ℤ))
                | _, _ => none).isSome = true := hsome
            rcases hm : monthMapLookup (strUpper p0) with - | m <;> rw [hm] at hred
            · simp at hred
            · rcases hy : parseIntJS p1 with - | y <;> rw [hy] at hred
              · simp at hred
              · obtain ⟨hu, h1, h2⟩ := splitSpace_eq_pair _ _ _ hs
                refine ⟨p0, p1, hu, h1, h2, ?_, by rw [hy]; rfl⟩
                have hfs : (MONTH_TABLE.find? (fun p => p.1 = strUpper p0)).isSome = true := by
                  unfold monthMapLookup at hm
                  rcases hf : MONTH_TABLE.find? (fun p => p.1 = strUpper p0) with - | q
                  · rw [hf] at hm; simp at hm
                  · rw [hf]; rfl
                obtain ⟨q, hqmem, hq⟩ := List.find?_isSome.mp hfs
                exact List.mem_map.mpr ⟨q, hqmem, by simpa using hq⟩
          · rw [hs] at hsome; simp at hsome
    · rintro ⟨t1, t2, hu, h1, h2, hmem, hy⟩
      unfold parseMonthYear
      rw [hu, splitSpace_append t1 t2 h1, splitSpace_no_space t2 h2]
      obtain ⟨q, hqmem, hq⟩ := List.mem_map.mp hmem
      have hfind : (MONTH_TABLE.find? (fun p => p.1 = strUpper t1)).isSome = true := by
        apply List.find?_isSome.mpr
        exact ⟨q, hqmem, by simp [hq]⟩
      rcases hf : MONTH_TABLE.find? (fun p => p.1 = strUpper t1) with - | q'
      · rw [hf] at hfind; simp at hfind
      · rcases hyv : parseIntJS t2 with - | y
        · rw [hyv] at hy; simp at hy
        · simp [monthMapLookup, hf, hyv]
  · intro headers mYH org row s hget hne hparse
    simp [rowOutcome, hget, cellTruthy, hne, hparse, cellToString]

/-- Witness for C4 (amended) at concrete strings and a concrete row. -/
theorem c4_amended_month_year_grammar_witness :
    (parseMonthYear (S "  sep 1999 ")).isSome = true ∧
    rowOutcome [S "Month Year"] (S "Month Year") (S "ACME")
        [(S "Month Year", .str (S "13 JAN"))] =
      .error (S "Invalid Month/Year format: " ++ S "13 JAN") := by
  constructor
  · exact (c4_amended_month_year_grammar.1 (S "  sep 1999 ")).mpr
      ⟨S "sep", S "1999", by decide, by decide, by decide, by decide, by decide⟩
  · exact c4_amended_month_year_grammar.2 [S "Month Year"] (S "Month Year") (S "ACME")
      [(S "Month Year", .str (S "13 JAN"))] (S "13 JAN") (by decide) (by decide) (by decide)

end Insight

namespace Insight

/-! ### Claim C2 — generic helper lemmas -/

theorem insertSorted_perm {α : Type} (le : α → α → Bool) (x : α) (l : List α) :
    List.Perm (insertSorted le x l) (x :: l) := by
  induction l with
  | nil => exact List.Perm.refl _
  | cons y t ih =>
    unfold insertSorted
    by_cases h : le x y
    · rw [if_pos h]
    · rw [if_neg h]
      exact ((ih.cons y).trans (List.Perm.swap x y t))

theorem sortByLe_perm {α : Type} (le : α → α → Bool) (l : List α) :
    List.Perm (sortByLe le l) l := by
  induction l with
  | nil => exact List.Perm.refl _
  | cons x t ih =>
    unfold sortByLe
    rw [List.foldr_cons]
    exact (insertSorted_perm le x _).trans (ih.cons x)

theorem rowGet_cons_eq (k : Str) (v : Cell) (t : Row) : rowGet ((k, v) :: t) k = some v := by
  simp [rowGet]

theorem rowGet_cons_ne (a k : Str) (v : Cell) (t : Row) (h : k ≠ a) :
    rowGet ((a, v) :: t) k = rowGet t k := by
  simp [rowGet, List.find?_cons, Ne.symm h]

theorem rowGet_append_left (l1 l2 : Row) (k : Str) (v : Cell)
    (h : rowGet l1 k = some v) : rowGet (l1 ++ l2) k = some v := by
  induction l1 with
  | nil => simp [rowGet] at h
  | cons p t ih =>
    obtain ⟨a, w⟩ := p
    by_cases hk : k = a
    · subst hk
      rw [rowGet_cons_eq] at h
      rw [List.cons_append, rowGet_cons_eq]
      exact h
    · rw [rowGet_cons_ne _ _ _ _ hk] at h
      rw [List.cons_append, rowGet_cons_ne _ _ _ _ hk]
      exact ih h

theorem rowGet_append_right (l1 l2 : Row) (k : Str)
    (h : rowGet l1 k = none) : rowGet (l1 ++ l2) k = rowGet l2 k := by
  induction l1 with
  | nil => rfl
  | cons p t ih =>
    obtain ⟨a, w⟩ := p
    by_cases hk : k = a
    · subst hk
      rw [rowGet_cons_eq] at h
      exact Option.noConfusion h
    · rw [rowGet_cons_ne _ _ _ _ hk] at h
      rw [List.cons_append, rowGet_cons_ne _ _ _ _ hk]
      exact ih h

theorem rowGet_keyMap_mem (f : Str → Cell) (l : List Str) (c : Str) (hc : c ∈ l) :
    rowGet (l.map (fun k => (k, f k))) c = some (f c) := by
  induction l with
  | nil => exact absurd hc (List.not_mem_nil c)
  | cons a t ih =>
    by_cases hk : c = a
    · subst hk
      simp [rowGet_cons_eq]
    · rw [List.map_cons, rowGet_cons_ne _ _ _ _ hk]
      exact ih (List.mem_cons.mp hc |>.resolve_left hk)

theorem rowGet_keyMap_not_mem (f : Str → Cell) (l : List Str) (c : Str) (hc : c ∉ l) :
    rowGet (l.map (fun k => (k, f k))) c = none := by
  induction l with
  | nil => rfl
  | cons a t ih =>
    have hk : c ≠ a := fun h => hc (h ▸ List.mem_cons_self ..)
    rw [List.map_cons, rowGet_cons_ne _ _ _ _ hk]
    exact ih (fun h => hc (List.mem_cons_of_mem _ h))

theorem find?_decomp {α : Type} (p : α → Bool) (l : List α) (b : α)
    (h : l.find? p = some b) :
    p b = true ∧ ∃ l1 l2, l = l1 ++ b :: l2 ∧ ∀ a ∈ l1, p a = false := by
  induction l with
  | nil => simp at h
  | cons x t ih =>
    by_cases hx : p x = true
    · rw [List.find?_cons_of_pos _ hx] at h
      obtain rfl := Option.some.inj h
      exact ⟨hx, [], t, rfl, by simp⟩
    · rw [List.find?_cons_of_neg _ (by simpa using hx)] at h
      obtain ⟨hb, l1, l2, hdecomp, hall⟩ := ih h
      refine ⟨hb, x :: l1, l2, by rw [hdecomp]; rfl, ?_⟩
      intro a ha
      rcases List.mem_cons.mp ha with rfl | ha
      · simpa using hx
      · exact hall a ha

theorem find?_append_eq {α : Type} (p : α → Bool) (l1 l2 : List α) :
    (l1 ++ l2).find? p = ((l1.find? p).rec (l2.find? p) (fun v => some v)) := by
  induction l1 with
  | nil => rfl
  | cons x t ih =>
    by_cases hx : p x = true
    · rw [List.cons_append, List.find?_cons_of_pos _ hx, List.find?_cons_of_pos _ hx]
    · rw [List.cons_append, List.find?_cons_of_neg _ (by simpa using hx),
        List.find?_cons_of_neg _ (by simpa using hx), ih]

/-- The sorted-category lookup reproduces the record's own line items, as a
    permutation: looking up each category of a duplicate-free category list in
    a duplicate-free line-item list whose categories all occur in it yields
    exactly those items, reordered. -/
theorem filterMap_find_perm (S : List Str) (items : List LineItem)
    (hS : S.Nodup) (hsub : ∀ it ∈ items, it.category ∈ S)
    (hkeys : (items.map LineItem.category).Nodup) :
    List.Perm (S.filterMap (fun c => items.find? (fun it => it.category = c))) items := by
  induction S generalizing items with
  | nil =>
    cases items with
    | nil => exact List.Perm.refl _
    | cons it t => exact absurd (hsub it (List.mem_cons_self ..)) (List.not_mem_nil _)
  | cons c S' ih =>
    rw [List.filterMap_cons]
    cases hfind : items.find? (fun it => it.category = c) with
    | none =>
      have hnone := List.find?_eq_none.mp hfind
      have hsub' : ∀ it ∈ items, it.category ∈ S' := by
        intro it hit
        rcases List.mem_cons.mp (hsub it hit) with hc | hc
        · exact absurd (by simpa using hc) (by simpa using hnone it hit)
        · exact hc
      exact ih items hS.of_cons hsub' hkeys
    | some it0 =>
      obtain ⟨hcat0, pre, post, hdecomp, hpre⟩ := find?_decomp _ _ _ hfind
      have hcat0' : it0.category = c := by simpa using hcat0
      have hkeysmid : c ∉ (pre ++ post).map LineItem.category ∧
          ((pre ++ post).map LineItem.category).Nodup := by
        have hnd : (items.map LineItem.category).Nodup := hkeys
        rw [hdecomp, List.map_append, List.map_cons, hcat0'] at hnd
        rw [List.map_append]
        exact List.nodup_cons.mp (List.nodup_middle.mp hnd)
      have hfind_eq : ∀ c' ∈ S', items.find? (fun it => it.category = c') =
          (pre ++ post).find? (fun it => it.category = c') := by
        intro c' hc'
        have hne : c' ≠ c := fun h => (List.nodup_cons.mp hS).1 (h ▸ hc')
        rw [hdecomp, find?_append_eq, find?_append_eq]
        cases hp : pre.find? (fun it => it.category = c') with
        | some v => rfl
        | none =>
          simp only
          rw [List.find?_cons_of_neg _ (by simp [hcat0', Ne.symm hne])]
      have hsub' : ∀ it ∈ pre ++ post, it.category ∈ S' := by
        intro it hit
        have hmem : it ∈ items := by
          rw [hdecomp]
          rcases List.mem_append.mp hit with h | h
          · exact List.mem_append_left _ h
          · exact List.mem_append_right _ (List.mem_cons_of_mem _ h)
        rcases List.mem_cons.mp (hsub it hmem) with hc | hc
        · exact absurd (hc ▸ List.mem_map_of_mem LineItem.category hit) hkeysmid.1
        · exact hc
      have hcongr : S'.filterMap (fun c' => items.find? (fun it => it.category = c')) =
          S'.filterMap (fun c' => (pre ++ post).find? (fun it => it.category = c')) := by
        apply List.filterMap_congr
        intro c' hc'
        rw [hfind_eq c' hc']
      rw [hcongr]
      have hperm := ih (pre ++ post) hS.of_cons hsub' hkeysmid.2
      have h1 : List.Perm
          (it0 :: S'.filterMap (fun c' => (pre ++ post).find? (fun it => it.category = c')))
          (it0 :: (pre ++ post)) := hperm.cons it0
      have h2 : List.Perm (pre ++ it0 :: post) (it0 :: (pre ++ post)) := List.perm_middle
      exact (h1.trans h2.symm).trans (by rw [hdecomp])

end Insight

namespace Insight

/-! ### Claim C2 — column-loop evaluation lemmas -/

theorem stepHeader_of_reserved (orgE orgD reserved : List Str) (row : Row)
    (acc : RowAcc) (h : Str) (hmem : h ∈ reserved)
    (h1 : h ≠ TOTAL_EARNINGS_HEADER) (h2 : h ≠ TOTAL_DEDUCTIONS_HEADER)
    (h3 : h ≠ NET_SALARY_HEADER) :
    stepHeader orgE orgD reserved row acc h = acc := by
  unfold stepHeader
  cases hc : coerceNum (rowGet row h) with
  | none => rfl
  | some v => simp [h1, h2, h3, hmem]

theorem stepHeader_totals_of_ne (orgE orgD reserved : List Str) (row : Row)
    (acc : RowAcc) (h : Str)
    (h1 : h ≠ TOTAL_EARNINGS_HEADER) (h2 : h ≠ TOTAL_DEDUCTIONS_HEADER)
    (h3 : h ≠ NET_SALARY_HEADER) :
    (stepHeader orgE orgD reserved row acc h).earningsTotal = acc.earningsTotal ∧
    (stepHeader orgE orgD reserved row acc h).deductionsTotal = acc.deductionsTotal ∧
    (stepHeader orgE orgD reserved row acc h).netSalary = acc.netSalary := by
  unfold stepHeader
  cases hc : coerceNum (rowGet row h) with
  | none => exact ⟨rfl, rfl, rfl⟩
  | some v =>
    simp only [h1, h2, h3, if_false, if_neg h1, if_neg h2, if_neg h3]
    by_cases h4 : (decide (h ∈ reserved) || decide (v = 0)) = true
    · simp [h4]
    · simp only [h4, if_false, Bool.false_eq_true]
      cases classifyColumn orgE orgD h <;> exact ⟨rfl, rfl, rfl⟩

theorem foldl_stepHeader_totals (orgE orgD reserved : List Str) (row : Row)
    (hs : List Str)
    (hno : ∀ h ∈ hs, h ≠ TOTAL_EARNINGS_HEADER ∧ h ≠ TOTAL_DEDUCTIONS_HEADER ∧
      h ≠ NET_SALARY_HEADER) :
    ∀ acc : RowAcc,
      (hs.foldl (stepHeader orgE orgD reserved row) acc).earningsTotal = acc.earningsTotal ∧
      (hs.foldl (stepHeader orgE orgD reserved row) acc).deductionsTotal = acc.deductionsTotal ∧
      (hs.foldl (stepHeader orgE orgD reserved row) acc).netSalary = acc.netSalary := by
  induction hs with
  | nil => intro acc; exact ⟨rfl, rfl, rfl⟩
  | cons h t ih =>
    intro acc
    rw [List.foldl_cons]
    obtain ⟨h1, h2, h3⟩ := hno h (List.mem_cons_self ..)
    obtain ⟨e1, e2, e3⟩ := stepHeader_totals_of_ne orgE orgD reserved row acc h h1 h2 h3
    obtain ⟨f1, f2, f3⟩ := ih (fun x hx => hno x (List.mem_cons_of_mem _ hx))
      (stepHeader orgE orgD reserved row acc h)
    exact ⟨f1.trans e1, f2.trans e2, f3.trans e3⟩

theorem stepHeader_TE (orgE orgD reserved : List Str) (row : Row) (acc : RowAcc)
    (v : ℚ) (hval : coerceNum (rowGet row TOTAL_EARNINGS_HEADER) = some v) :
    stepHeader orgE orgD reserved row acc TOTAL_EARNINGS_HEADER =
      { acc with earningsTotal := v } := by
  unfold stepHeader
  rw [hval]
  show (if TOTAL_EARNINGS_HEADER = TOTAL_EARNINGS_HEADER then
      { acc with earningsTotal := v } else _) = _
  rw [if_pos rfl]

theorem stepHeader_TD (orgE orgD reserved : List Str) (row : Row) (acc : RowAcc)
    (v : ℚ) (hval : coerceNum (rowGet row TOTAL_DEDUCTIONS_HEADER) = some v) :
    stepHeader orgE orgD reserved row acc TOTAL_DEDUCTIONS_HEADER =
      { acc with deductionsTotal := v } := by
  unfold stepHeader
  rw [hval]
  have h1 : TOTAL_DEDUCTIONS_HEADER ≠ TOTAL_EARNINGS_HEADER := by decide
  show (if TOTAL_DEDUCTIONS_HEADER = TOTAL_EARNINGS_HEADER then _
    else if TOTAL_DEDUCTIONS_HEADER = TOTAL_DEDUCTIONS_HEADER then
      { acc with deductionsTotal := v } else _) = _
  rw [if_neg h1, if_pos rfl]

theorem colItem_of_reserved (orgE orgD reserved : List Str) (row : Row) (h : Str)
    (hmem : h ∈ reserved) : colItem orgE orgD reserved row h = none := by
  unfold colItem
  cases hc : coerceNum (rowGet row h) with
  | none => rfl
  | some v =>
    by_cases h1 : h = TOTAL_EARNINGS_HEADER
    · simp [h1]
    · by_cases h2 : h = TOTAL_DEDUCTIONS_HEADER
      · simp [h1, h2]
      · by_cases h3 : h = NET_SALARY_HEADER
        · simp [h1, h2, h3]
        · simp [h1, h2, h3, hmem]

theorem colItem_of_TE (orgE orgD reserved : List Str) (row : Row) :
    colItem orgE orgD reserved row TOTAL_EARNINGS_HEADER = none := by
  unfold colItem
  cases hc : coerceNum (rowGet row TOTAL_EARNINGS_HEADER) with
  | none => rfl
  | some v => simp

theorem colItem_of_TD (orgE orgD reserved : List Str) (row : Row) :
    colItem orgE orgD reserved row TOTAL_DEDUCTIONS_HEADER = none := by
  unfold colItem
  cases hc : coerceNum (rowGet row TOTAL_DEDUCTIONS_HEADER) with
  | none => rfl
  | some v =>
    simp [(by decide : TOTAL_DEDUCTIONS_HEADER ≠ TOTAL_EARNINGS_HEADER)]

theorem colItem_of_zero (orgE orgD reserved : List Str) (row : Row) (h : Str)
    (hval : coerceNum (rowGet row h) = some 0) :
    colItem orgE orgD reserved row h = none := by
  unfold colItem
  rw [hval]
  by_cases h1 : h = TOTAL_EARNINGS_HEADER
  · simp [h1]
  · by_cases h2 : h = TOTAL_DEDUCTIONS_HEADER
    · simp [h1, h2]
    · by_cases h3 : h = NET_SALARY_HEADER
      · simp [h1, h2, h3]
      · simp [h1, h2, h3]

/-- "Net Pay" is never a known category and matches no deduction keyword, for
    every organization: it falls to the default earning bucket. -/
theorem classify_netPay_earning (o : Str) :
    classifyColumn (ORG_EARNINGS o) (ORG_DEDUCTIONS o) (S "Net Pay") = .earning := by
  unfold ORG_EARNINGS ORG_DEDUCTIONS
  split_ifs <;> decide

set_option maxRecDepth 40000 in
/-- The exported month label round-trips through `parseMonthYear` for every
    in-range month and executor-range year, and is never the empty string. -/
theorem monthLabel_parses :
    ∀ m ∈ Finset.Icc 1 12, ∀ y ∈ Finset.Icc (2000 : ℤ) 2100,
      parseMonthYear (monthLabel m y) = some (m, y) ∧
      (monthLabel m y).isEmpty = false := by decide

theorem zip_self_map {α β : Type} (l : List α) (g : α → β) :
    l.zip (l.map g) = l.map (fun a => (a, g a)) := by
  induction l with
  | nil => rfl
  | cons a t ih => simp [ih]

end Insight

namespace Insight

/-! ### Claim C2 — the per-row round trip -/

/-- The five structurally-meaningful header names of an exported sheet. -/
def exportReservedNames : List Str :=
  [S "Month Year", S "Total Earnings", S "Total Deductions", S "Net Salary", S "Net Pay"]

/-- The extra earning item the re-import manufactures from the exported
    "Net Pay" column (absent when the net salary is 0). -/
def netPayItems (r : DbExportRecord) : List LineItem :=
  if r.netSalary = 0 then [] else [⟨S "Net Pay", r.netSalary⟩]

/-- The line items recovered from a sheet's category columns for one record. -/
def catItems (cats : List Str) (items : List LineItem) : List LineItem :=
  cats.filterMap (fun c => items.find? (fun it => it.category = c))

theorem zip_append_of_length {α β : Type} (l1 l2 : List α) (m1 m2 : List β)
    (h : l1.length = m1.length) :
    (l1 ++ l2).zip (m1 ++ m2) = l1.zip m1 ++ l2.zip m2 := by
  induction l1 generalizing m1 with
  | nil =>
    cases m1 with
    | nil => rfl
    | cons b t => exact absurd h (by simp)
  | cons a t ih =>
    cases m1 with
    | nil => exact absurd h (by simp)
    | cons b t' =>
      simp only [List.cons_append, List.zip_cons_cons]
      rw [ih t' (by simpa using h)]

theorem filterMap_all_none {α β : Type} (f : α → Option β) (l : List α)
    (h : ∀ a ∈ l, f a = none) : l.filterMap f = [] := by
  induction l with
  | nil => rfl
  | cons a t ih =>
    rw [List.filterMap_cons, h a (List.mem_cons_self ..)]
    exact ih (fun x hx => h x (List.mem_cons_of_mem _ hx))

theorem ne_reserved_of_not_export (c : Str) (hc : c ∉ exportReservedNames) :
    c ≠ S "Month Year" ∧ c ≠ TOTAL_EARNINGS_HEADER ∧ c ≠ TOTAL_DEDUCTIONS_HEADER ∧
    c ≠ NET_SALARY_HEADER ∧ c ≠ S "Net Pay" := by
  refine ⟨?_, ?_, ?_, ?_, ?_⟩ <;> intro h <;> exact hc (by rw [h]; decide)

theorem not_mem_reservedHeaders_of_not_export (c : Str) (hc : c ∉ exportReservedNames) :
    c ∉ reservedHeaders (S "Month Year") := by
  intro hmem
  simp only [reservedHeaders, List.mem_cons, List.not_mem_nil, or_false] at hmem
  rcases hmem with h | h | h | h <;> exact hc (by rw [h]; decide)

/-- A category column of an exported row contributes to the re-parsed record
    exactly the record's own line item of that category (or nothing), and
    nothing to the other bucket. -/
theorem colItems_of_catColumn (o : Str) (row : Row) (c : Str) (items : List LineItem)
    (hc : c ∉ exportReservedNames)
    (hget : rowGet row c = some (Cell.num (findAmount items c)))
    (hnz : ∀ it ∈ items, it.amount ≠ 0)
    (hkind : ColKind)
    (hcl : ∀ it ∈ items, it.category = c →
      classifyColumn (ORG_EARNINGS o) (ORG_DEDUCTIONS o) c = hkind) :
    (hkind = .earning →
      colEarnItem (ORG_EARNINGS o) (ORG_DEDUCTIONS o) (reservedHeaders (S "Month Year")) row c =
        items.find? (fun it => it.category = c) ∧
      colDedItem (ORG_EARNINGS o) (ORG_DEDUCTIONS o) (reservedHeaders (S "Month Year")) row c =
        none) ∧
    (hkind = .deduction →
      colDedItem (ORG_EARNINGS o) (ORG_DEDUCTIONS o) (reservedHeaders (S "Month Year")) row c =
        items.find? (fun it => it.category = c) ∧
      colEarnItem (ORG_EARNINGS o) (ORG_DEDUCTIONS o) (reservedHeaders (S "Month Year")) row c =
        none) := by
  obtain ⟨-, h1, h2, h3, -⟩ := ne_reserved_of_not_export c hc
  have hres := not_mem_reservedHeaders_of_not_export c hc
  have hval : coerceNum (rowGet row c) = some (findAmount items c) := by rw [hget]; rfl
  cases hfind : items.find? (fun it => it.category = c) with
  | none =>
    have hzero : findAmount items c = 0 := by unfold findAmount; rw [hfind]
    rw [hzero] at hval
    have hnone := colItem_of_zero (ORG_EARNINGS o) (ORG_DEDUCTIONS o)
      (reservedHeaders (S "Month Year")) row c hval
    have he : colEarnItem (ORG_EARNINGS o) (ORG_DEDUCTIONS o)
        (reservedHeaders (S "Month Year")) row c = none := by
      unfold colEarnItem
      rw [hnone]
    have hd : colDedItem (ORG_EARNINGS o) (ORG_DEDUCTIONS o)
        (reservedHeaders (S "Month Year")) row c = none := by
      unfold colDedItem
      rw [hnone]
    exact ⟨fun _ => ⟨he, hd⟩, fun _ => ⟨hd, he⟩⟩
  | some it =>
    have hit_mem : it ∈ items := List.mem_of_find?_eq_some hfind
    have hit_cat : it.category = c := by simpa using List.find?_some hfind
    have hamt : findAmount items c = it.amount := by unfold findAmount; rw [hfind]
    have hnz' : findAmount items c ≠ 0 := by rw [hamt]; exact hnz it hit_mem
    have hcol := colItem_eval (ORG_EARNINGS o) (ORG_DEDUCTIONS o)
      (reservedHeaders (S "Month Year")) row c _ hval hnz' hres h1 h2 h3
    have hcl' := hcl it hit_mem hit_cat
    constructor <;> intro hk <;> subst hk
    · rw [hcl'] at hcol
      constructor
      · unfold colEarnItem
        rw [hcol, hamt, ← hit_cat]
      · unfold colDedItem
        rw [hcol]
    · rw [hcl'] at hcol
      constructor
      · unfold colDedItem
        rw [hcol, hamt, ← hit_cat]
      · unfold colEarnItem
        rw [hcol]

/-- One exported row of one record re-parses to exactly the expected record:
    same month, year, organization and declared totals, the record's own line
    items recovered from the category columns, the "Net Pay" column as an extra
    earning when non-zero, and a zero `netSalary`. -/
theorem rowOutcome_exportRow (o : Str) (eCats dCats : List Str) (r : DbExportRecord)
    (hm : r.month ∈ Finset.Icc 1 12) (hy : r.year ∈ Finset.Icc (2000 : ℤ) 2100)
    (heC : ∀ c ∈ eCats, c ∉ exportReservedNames)
    (hdC : ∀ c ∈ dCats, c ∉ exportReservedNames)
    (hED : ∀ c ∈ dCats, c ∉ eCats)
    (hnzE : ∀ it ∈ r.earnings, it.amount ≠ 0)
    (hnzD : ∀ it ∈ r.deductions, it.amount ≠ 0)
    (hclE : ∀ it ∈ r.earnings,
      classifyColumn (ORG_EARNINGS o) (ORG_DEDUCTIONS o) it.category = .earning)
    (hclD : ∀ it ∈ r.deductions,
      classifyColumn (ORG_EARNINGS o) (ORG_DEDUCTIONS o) it.category = .deduction) :
    rowOutcome (exportHeaders eCats dCats) (S "Month Year") o
        ((exportHeaders eCats dCats).zip (exportRow eCats dCats r)) =
      .ok ⟨o, r.month, r.year, catItems eCats r.earnings ++ netPayItems r,
        catItems dCats r.deductions, r.totalEarnings, r.totalDeductions, 0⟩ := by
  set label : Str := monthLabel r.month r.year with hlabel
  set eAssoc : Row :=
    eCats.map (fun c => (c, Cell.num (findAmount r.earnings c))) with heA
  set dAssoc : Row :=
    dCats.map (fun c => (c, Cell.num (findAmount r.deductions c))) with hdA
  set tail3 : Row := [(TOTAL_EARNINGS_HEADER, Cell.num r.totalEarnings),
    (TOTAL_DEDUCTIONS_HEADER, Cell.num r.totalDeductions),
    (S "Net Pay", Cell.num r.netSalary)] with ht3
  have hrow : (exportHeaders eCats dCats).zip (exportRow eCats dCats r) =
      (S "Month Year", Cell.str label) :: (eAssoc ++ (dAssoc ++ tail3)) := by
    unfold exportHeaders exportRow
    rw [List.zip_cons_cons, zip_append_of_length _ _ _ _ (by simp),
      zip_append_of_length _ _ _ _ (by simp), zip_self_map, zip_self_map]
    simp [heA, hdA, ht3, List.append_assoc]
  rw [hrow]
  set row : Row := (S "Month Year", Cell.str label) :: (eAssoc ++ (dAssoc ++ tail3)) with hrowdef
  have hgetMY : rowGet row (S "Month Year") = some (Cell.str label) := rowGet_cons_eq _ _ _
  have hTEe : TOTAL_EARNINGS_HEADER ∉ eCats := fun hmem => heC _ hmem (by decide)
  have hTEd : TOTAL_EARNINGS_HEADER ∉ dCats := fun hmem => hdC _ hmem (by decide)
  have hTDe : TOTAL_DEDUCTIONS_HEADER ∉ eCats := fun hmem => heC _ hmem (by decide)
  have hTDd : TOTAL_DEDUCTIONS_HEADER ∉ dCats := fun hmem => hdC _ hmem (by decide)
  have hNPe : (S "Net Pay") ∉ eCats := fun hmem => heC _ hmem (by decide)
  have hNPd : (S "Net Pay") ∉ dCats := fun hmem => hdC _ hmem (by decide)
  have hgetE : ∀ c ∈ eCats, rowGet row c = some (Cell.num (findAmount r.earnings c)) := by
    intro c hc
    rw [hrowdef, rowGet_cons_ne _ _ _ _ (ne_reserved_of_not_export c (heC c hc)).1]
    exact rowGet_append_left _ _ _ _ (by rw [heA]; exact rowGet_keyMap_mem _ _ _ hc)
  have hgetD : ∀ c ∈ dCats, rowGet row c = some (Cell.num (findAmount r.deductions c)) := by
    intro c hc
    rw [hrowdef, rowGet_cons_ne _ _ _ _ (ne_reserved_of_not_export c (hdC c hc)).1]
    rw [rowGet_append_right _ _ _ (by rw [heA]; exact rowGet_keyMap_not_mem _ _ _ (hED c hc))]
    exact rowGet_append_left _ _ _ _ (by rw [hdA]; exact rowGet_keyMap_mem _ _ _ hc)
  have hgetTE : rowGet row TOTAL_EARNINGS_HEADER = some (Cell.num r.totalEarnings) := by
    rw [hrowdef, rowGet_cons_ne _ _ _ _ (by decide)]
    rw [rowGet_append_right _ _ _ (by rw [heA]; exact rowGet_keyMap_not_mem _ _ _ hTEe)]
    rw [rowGet_append_right _ _ _ (by rw [hdA]; exact rowGet_keyMap_not_mem _ _ _ hTEd)]
    rw [ht3]
    exact rowGet_cons_eq _ _ _
  have hgetTD : rowGet row TOTAL_DEDUCTIONS_HEADER = some (Cell.num r.totalDeductions) := by
    rw [hrowdef, rowGet_cons_ne _ _ _ _ (by decide)]
    rw [rowGet_append_right _ _ _ (by rw [heA]; exact rowGet_keyMap_not_mem _ _ _ hTDe)]
    rw [rowGet_append_right _ _ _ (by rw [hdA]; exact rowGet_keyMap_not_mem _ _ _ hTDd)]
    rw [ht3, rowGet_cons_ne _ _ _ _ (by decide)]
    exact rowGet_cons_eq _ _ _
  have hgetNP : rowGet row (S "Net Pay") = some (Cell.num r.netSalary) := by
    rw [hrowdef, rowGet_cons_ne _ _ _ _ (by decide)]
    rw [rowGet_append_right _ _ _ (by rw [heA]; exact rowGet_keyMap_not_mem _ _ _ hNPe)]
    rw [rowGet_append_right _ _ _ (by rw [hdA]; exact rowGet_keyMap_not_mem _ _ _ hNPd)]
    rw [ht3, rowGet_cons_ne _ _ _ _ (by decide), rowGet_cons_ne _ _ _ _ (by decide)]
    exact rowGet_cons_eq _ _ _
  -- per-column contributions
  have hcolE : ∀ c ∈ eCats,
      colEarnItem (ORG_EARNINGS o) (ORG_DEDUCTIONS o) (reservedHeaders (S "Month Year")) row c =
        r.earnings.find? (fun it => it.category = c) ∧
      colDedItem (ORG_EARNINGS o) (ORG_DEDUCTIONS o) (reservedHeaders (S "Month Year")) row c =
        none := by
    intro c hc
    exact (colItems_of_catColumn o row c r.earnings (heC c hc) (hgetE c hc) hnzE .earning
      (fun it hmem hcat => hcat ▸ hclE it hmem)).1 rfl
  have hcolD : ∀ c ∈ dCats,
      colDedItem (ORG_EARNINGS o) (ORG_DEDUCTIONS o) (reservedHeaders (S "Month Year")) row c =
        r.deductions.find? (fun it => it.category = c) ∧
      colEarnItem (ORG_EARNINGS o) (ORG_DEDUCTIONS o) (reservedHeaders (S "Month Year")) row c =
        none := by
    intro c hc
    exact (colItems_of_catColumn o row c r.deductions (hdC c hc) (hgetD c hc) hnzD .deduction
      (fun it hmem hcat => hcat ▸ hclD it hmem)).2 rfl
  have hcolNP_e :
      colEarnItem (ORG_EARNINGS o) (ORG_DEDUCTIONS o) (reservedHeaders (S "Month Year")) row
        (S "Net Pay") = (netPayItems r).head? ∧
      colDedItem (ORG_EARNINGS o) (ORG_DEDUCTIONS o) (reservedHeaders (S "Month Year")) row
        (S "Net Pay") = none := by
    have hval : coerceNum (rowGet row (S "Net Pay")) = some r.netSalary := by
      rw [hgetNP]; rfl
    by_cases hz : r.netSalary = 0
    · rw [hz] at hval
      have hnone := colItem_of_zero (ORG_EARNINGS o) (ORG_DEDUCTIONS o)
        (reservedHeaders (S "Month Year")) row (S "Net Pay") hval
      unfold colEarnItem colDedItem
      rw [hnone]
      simp [netPayItems, hz]
    · have hcol := colItem_eval (ORG_EARNINGS o) (ORG_DEDUCTIONS o)
        (reservedHeaders (S "Month Year")) row (S "Net Pay") _ hval hz (by decide)
        (by decide) (by decide) (by decide)
      rw [classify_netPay_earning o] at hcol
      unfold colEarnItem colDedItem
      rw [hcol]
      simp [netPayItems, hz]
  -- earnings and deductions of the parsed body
  have hTE_none := colItem_of_TE (ORG_EARNINGS o) (ORG_DEDUCTIONS o)
    (reservedHeaders (S "Month Year")) row
  have hTD_none := colItem_of_TD (ORG_EARNINGS o) (ORG_DEDUCTIONS o)
    (reservedHeaders (S "Month Year")) row
  have hMY_none := colItem_of_reserved (ORG_EARNINGS o) (ORG_DEDUCTIONS o)
    (reservedHeaders (S "Month Year")) row (S "Month Year") (by simp [reservedHeaders])
  have hbodyE : (parseRowBody (ORG_EARNINGS o) (ORG_DEDUCTIONS o)
      (reservedHeaders (S "Month Year")) row (exportHeaders eCats dCats)).earnings =
      catItems eCats r.earnings ++ netPayItems r := by
    rw [parseRowBody_earnings]
    unfold exportHeaders
    rw [List.filterMap_cons, List.filterMap_append, List.filterMap_append]
    have hMYe : colEarnItem (ORG_EARNINGS o) (ORG_DEDUCTIONS o)
        (reservedHeaders (S "Month Year")) row (S "Month Year") = none := by
      unfold colEarnItem
      rw [hMY_none]
    rw [hMYe]
    have hEseg : eCats.filterMap (colEarnItem (ORG_EARNINGS o) (ORG_DEDUCTIONS o)
        (reservedHeaders (S "Month Year")) row) = catItems eCats r.earnings := by
      unfold catItems
      exact List.filterMap_congr (fun c hc => (hcolE c hc).1)
    have hDseg : dCats.filterMap (colEarnItem (ORG_EARNINGS o) (ORG_DEDUCTIONS o)
        (reservedHeaders (S "Month Year")) row) = [] :=
      filterMap_all_none _ _ (fun c hc => (hcolD c hc).2)
    have hTseg : [TOTAL_EARNINGS_HEADER, TOTAL_DEDUCTIONS_HEADER, S "Net Pay"].filterMap
        (colEarnItem (ORG_EARNINGS o) (ORG_DEDUCTIONS o)
          (reservedHeaders (S "Month Year")) row) = netPayItems r := by
      rw [List.filterMap_cons, List.filterMap_cons, List.filterMap_cons, List.filterMap_nil]
      have e1 : colEarnItem (ORG_EARNINGS o) (ORG_DEDUCTIONS o)
          (reservedHeaders (S "Month Year")) row TOTAL_EARNINGS_HEADER = none := by
        unfold colEarnItem
        rw [hTE_none]
      have e2 : colEarnItem (ORG_EARNINGS o) (ORG_DEDUCTIONS o)
          (reservedHeaders (S "Month Year")) row TOTAL_DEDUCTIONS_HEADER = none := by
        unfold colEarnItem
        rw [hTD_none]
      rw [e1, e2, hcolNP_e.1]
      unfold netPayItems
      by_cases hz : r.netSalary = 0 <;> simp [hz]
    rw [hEseg, hDseg, hTseg]
    rfl
  have hbodyD : (parseRowBody (ORG_EARNINGS o) (ORG_DEDUCTIONS o)
      (reservedHeaders (S "Month Year")) row (exportHeaders eCats dCats)).deductions =
      catItems dCats r.deductions := by
    rw [parseRowBody_deductions]
    unfold exportHeaders
    rw [List.filterMap_cons, List.filterMap_append, List.filterMap_append]
    have hMYd : colDedItem (ORG_EARNINGS o) (ORG_DEDUCTIONS o)
        (reservedHeaders (S "Month Year")) row (S "Month Year") = none := by
      unfold colDedItem
      rw [hMY_none]
    rw [hMYd]
    have hEseg : eCats.filterMap (colDedItem (ORG_EARNINGS o) (ORG_DEDUCTIONS o)
        (reservedHeaders (S "Month Year")) row) = [] :=
      filterMap_all_none _ _ (fun c hc => (hcolE c hc).2)
    have hDseg : dCats.filterMap (colDedItem (ORG_EARNINGS o) (ORG_DEDUCTIONS o)
        (reservedHeaders (S "Month Year")) row) = catItems dCats r.deductions := by
      unfold catItems
      exact List.filterMap_congr (fun c hc => (hcolD c hc).1)
    have hTseg : [TOTAL_EARNINGS_HEADER, TOTAL_DEDUCTIONS_HEADER, S "Net Pay"].filterMap
        (colDedItem (ORG_EARNINGS o) (ORG_DEDUCTIONS o)
          (reservedHeaders (S "Month Year")) row) = [] := by
      rw [List.filterMap_cons, List.filterMap_cons, List.filterMap_cons, List.filterMap_nil]
      have e1 : colDedItem (ORG_EARNINGS o) (ORG_DEDUCTIONS o)
          (reservedHeaders (S "Month Year")) row TOTAL_EARNINGS_HEADER = none := by
        unfold colDedItem
        rw [hTE_none]
      have e2 : colDedItem (ORG_EARNINGS o) (ORG_DEDUCTIONS o)
          (reservedHeaders (S "Month Year")) row TOTAL_DEDUCTIONS_HEADER = none := by
        unfold colDedItem
        rw [hTD_none]
      rw [e1, e2, hcolNP_e.2]
    rw [hEseg, hDseg, hTseg]
    simp
  -- totals of the parsed body
  have hcats_ne : ∀ c ∈ eCats ++ dCats, c ≠ TOTAL_EARNINGS_HEADER ∧
      c ≠ TOTAL_DEDUCTIONS_HEADER ∧ c ≠ NET_SALARY_HEADER := by
    intro c hc
    rcases List.mem_append.mp hc with h | h
    · obtain ⟨-, a, b, d, -⟩ := ne_reserved_of_not_export c (heC c h)
      exact ⟨a, b, d⟩
    · obtain ⟨-, a, b, d, -⟩ := ne_reserved_of_not_export c (hdC c h)
      exact ⟨a, b, d⟩
  have hbodyT : (parseRowBody (ORG_EARNINGS o) (ORG_DEDUCTIONS o)
      (reservedHeaders (S "Month Year")) row (exportHeaders eCats dCats)).earningsTotal =
        r.totalEarnings ∧
      (parseRowBody (ORG_EARNINGS o) (ORG_DEDUCTIONS o)
      (reservedHeaders (S "Month Year")) row (exportHeaders eCats dCats)).deductionsTotal =
        r.totalDeductions ∧
      (parseRowBody (ORG_EARNINGS o) (ORG_DEDUCTIONS o)
      (reservedHeaders (S "Month Year")) row (exportHeaders eCats dCats)).netSalary = 0 := by
    unfold parseRowBody exportHeaders
    rw [List.foldl_cons,
      stepHeader_of_reserved _ _ _ _ _ _ (by simp [reservedHeaders]) (by decide) (by decide)
        (by decide),
      show eCats ++ (dCats ++ [TOTAL_EARNINGS_HEADER, TOTAL_DEDUCTIONS_HEADER, S "Net Pay"]) =
        (eCats ++ dCats) ++ [TOTAL_EARNINGS_HEADER, TOTAL_DEDUCTIONS_HEADER, S "Net Pay"] by
        rw [List.append_assoc],
      List.foldl_append]
    obtain ⟨t1, t2, t3⟩ := foldl_stepHeader_totals (ORG_EARNINGS o) (ORG_DEDUCTIONS o)
      (reservedHeaders (S "Month Year")) row (eCats ++ dCats) hcats_ne
      (⟨[], [], 0, 0, 0⟩ : RowAcc)
    set accED := (eCats ++ dCats).foldl
      (stepHeader (ORG_EARNINGS o) (ORG_DEDUCTIONS o) (reservedHeaders (S "Month Year")) row)
      (⟨[], [], 0, 0, 0⟩ : RowAcc) with haccED
    rw [List.foldl_cons, List.foldl_cons, List.foldl_cons, List.foldl_nil]
    rw [stepHeader_TE _ _ _ _ _ _ (by rw [hgetTE]; rfl),
      stepHeader_TD _ _ _ _ _ _ (by rw [hgetTD]; rfl)]
    obtain ⟨n1, n2, n3⟩ := stepHeader_totals_of_ne (ORG_EARNINGS o) (ORG_DEDUCTIONS o)
      (reservedHeaders (S "Month Year")) row
      { { accED with earningsTotal := r.totalEarnings } with
        deductionsTotal := r.totalDeductions } (S "Net Pay") (by decide) (by decide) (by decide)
    rw [n1, n2, n3]
    exact ⟨rfl, rfl, t3⟩
  -- month/year parsing of the label cell
  obtain ⟨hparse, hlabelne⟩ := monthLabel_parses r.month hm r.year hy
  have htruthy : cellTruthy (some (Cell.str label)) = true := by
    simp [cellTruthy, hlabel, hlabelne]
  have hout : rowOutcome (exportHeaders eCats dCats) (S "Month Year") o row =
      .ok ⟨o, r.month, r.year,
        (parseRowBody (ORG_EARNINGS o) (ORG_DEDUCTIONS o)
          (reservedHeaders (S "Month Year")) row (exportHeaders eCats dCats)).earnings,
        (parseRowBody (ORG_EARNINGS o) (ORG_DEDUCTIONS o)
          (reservedHeaders (S "Month Year")) row (exportHeaders eCats dCats)).deductions,
        (parseRowBody (ORG_EARNINGS o) (ORG_DEDUCTIONS o)
          (reservedHeaders (S "Month Year")) row (exportHeaders eCats dCats)).earningsTotal,
        (parseRowBody (ORG_EARNINGS o) (ORG_DEDUCTIONS o)
          (reservedHeaders (S "Month Year")) row (exportHeaders eCats dCats)).deductionsTotal,
        (parseRowBody (ORG_EARNINGS o) (ORG_DEDUCTIONS o)
          (reservedHeaders (S "Month Year")) row (exportHeaders eCats dCats)).netSalary⟩ := by
    unfold rowOutcome
    rw [hgetMY]
    simp only [htruthy, Bool.true_eq_false, if_false, cellToString, ← hlabel, hparse]
  rw [hout, hbodyE, hbodyD, hbodyT.1, hbodyT.2.1, hbodyT.2.2]

/-! ### Claim C2 — grouping, sheet and plan assembly -/

/-- The parsed record the re-import recovers from one exported row. -/
def roundTripParse (o : Str) (eCats dCats : List Str) (r : DbExportRecord) : ParsedRecord :=
  ⟨o, r.month, r.year, catItems eCats r.earnings ++ netPayItems r,
   catItems dCats r.deductions, r.totalEarnings, r.totalDeductions, 0⟩

/-- The comparison view of a salary record for the round-trip statement: its
    identifying tuple plus its per-category amounts as multisets. -/
structure RecSummary where
  month : ℕ
  year : ℤ
  organization : Str
  totalEarnings : ℚ
  totalDeductions : ℚ
  netSalary : ℚ
  earnings : Multiset LineItem
  deductions : Multiset LineItem

/-- The summary of a record produced by the import parser. -/
def parsedSummary (p : ParsedRecord) : RecSummary :=
  ⟨p.month, p.year, p.organization, p.totalEarnings, p.totalDeductions, p.netSalary,
   (p.earnings : Multiset LineItem), (p.deductions : Multiset LineItem)⟩

/-- What the round trip actually preserves of a persisted record: its
    identifying tuple with `netSalary` reset to 0, its earnings plus the
    manufactured "Net Pay" item, and its deductions. -/
def exportedSummary (o : Str) (r : DbExportRecord) : RecSummary :=
  ⟨r.month, r.year, o, r.totalEarnings, r.totalDeductions, 0,
   (r.earnings : Multiset LineItem) + (netPayItems r : Multiset LineItem),
   (r.deductions : Multiset LineItem)⟩

theorem insertUnique_mem (l : List Str) (x y : Str) :
    y ∈ insertUnique l x ↔ y ∈ l ∨ y = x := by
  unfold insertUnique
  by_cases h : x ∈ l
  · rw [if_pos h]
    constructor
    · exact fun hy => Or.inl hy
    · rintro (hy | rfl)
      · exact hy
      · exact h
  · rw [if_neg h]
    simp

theorem insertUnique_nodup (l : List Str) (x : Str) (h : l.Nodup) :
    (insertUnique l x).Nodup := by
  unfold insertUnique
  by_cases hx : x ∈ l
  · rw [if_pos hx]
    exact h
  · rw [if_neg hx]
    simp [List.nodup_append, h, hx]

theorem foldl_insertUnique_mem (items : List LineItem) :
    ∀ (acc : List Str) (y : Str),
      y ∈ items.foldl (fun a e => insertUnique a e.category) acc ↔
        y ∈ acc ∨ ∃ e ∈ items, e.category = y := by
  induction items with
  | nil =>
    intro acc y
    simp
  | cons it t ih =>
    intro acc y
    rw [List.foldl_cons, ih, insertUnique_mem]
    constructor
    · rintro ((hy | rfl) | ⟨e, he, rfl⟩)
      · exact Or.inl hy
      · exact Or.inr ⟨it, List.mem_cons_self .., rfl⟩
      · exact Or.inr ⟨e, List.mem_cons_of_mem _ he, rfl⟩
    · rintro (hy | ⟨e, he, rfl⟩)
      · exact Or.inl (Or.inl hy)
      · rcases List.mem_cons.mp he with rfl | he'
        · exact Or.inl (Or.inr rfl)
        · exact Or.inr ⟨e, he', rfl⟩

theorem foldl_insertUnique_nodup (items : List LineItem) :
    ∀ acc : List Str, acc.Nodup →
      (items.foldl (fun a e => insertUnique a e.category) acc).Nodup := by
  induction items with
  | nil => exact fun _ h => h
  | cons it t ih =>
    intro acc h
    exact ih _ (insertUnique_nodup _ _ h)

theorem foldl_orgDataAdd_records (rs : List DbExportRecord) :
    ∀ od : OrgData, (rs.foldl orgDataAdd od).records = od.records ++ rs := by
  induction rs with
  | nil =>
    intro od
    simp
  | cons r t ih =>
    intro od
    rw [List.foldl_cons, ih]
    simp [orgDataAdd]

theorem foldl_orgDataAdd_earnCats_mem (rs : List DbExportRecord) :
    ∀ (od : OrgData) (y : Str),
      y ∈ (rs.foldl orgDataAdd od).earnCats ↔
        y ∈ od.earnCats ∨ ∃ r ∈ rs, ∃ e ∈ r.earnings, e.category = y := by
  induction rs with
  | nil =>
    intro od y
    simp
  | cons r t ih =>
    intro od y
    rw [List.foldl_cons, ih]
    rw [show (orgDataAdd od r).earnCats =
      r.earnings.foldl (fun a e => insertUnique a e.category) od.earnCats from rfl]
    rw [foldl_insertUnique_mem]
    constructor
    · rintro ((hy | ⟨e, he, rfl⟩) | ⟨r', hr', e, he, rfl⟩)
      · exact Or.inl hy
      · exact Or.inr ⟨r, List.mem_cons_self .., e, he, rfl⟩
      · exact Or.inr ⟨r', List.mem_cons_of_mem _ hr', e, he, rfl⟩
    · rintro (hy | ⟨r', hr', e, he, rfl⟩)
      · exact Or.inl (Or.inl hy)
      · rcases List.mem_cons.mp hr' with rfl | hr''
        · exact Or.inl (Or.inr ⟨e, he, rfl⟩)
        · exact Or.inr ⟨r', hr'', e, he, rfl⟩

theorem foldl_orgDataAdd_dedCats_mem (rs : List DbExportRecord) :
    ∀ (od : OrgData) (y : Str),
      y ∈ (rs.foldl orgDataAdd od).dedCats ↔
        y ∈ od.dedCats ∨ ∃ r ∈ rs, ∃ d ∈ r.deductions, d.category = y := by
  induction rs with
  | nil =>
    intro od y
    simp
  | cons r t ih =>
    intro od y
    rw [List.foldl_cons, ih]
    rw [show (orgDataAdd od r).dedCats =
      r.deductions.foldl (fun a d => insertUnique a d.category) od.dedCats from rfl]
    rw [foldl_insertUnique_mem]
    constructor
    · rintro ((hy | ⟨e, he, rfl⟩) | ⟨r', hr', e, he, rfl⟩)
      · exact Or.inl hy
      · exact Or.inr ⟨r, List.mem_cons_self .., e, he, rfl⟩
      · exact Or.inr ⟨r', List.mem_cons_of_mem _ hr', e, he, rfl⟩
    · rintro (hy | ⟨r', hr', e, he, rfl⟩)
      · exact Or.inl (Or.inl hy)
      · rcases List.mem_cons.mp hr' with rfl | hr''
        · exact Or.inl (Or.inr ⟨e, he, rfl⟩)
        · exact Or.inr ⟨r', hr'', e, he, rfl⟩

theorem foldl_orgDataAdd_earnCats_nodup (rs : List DbExportRecord) :
    ∀ od : OrgData, od.earnCats.Nodup → (rs.foldl orgDataAdd od).earnCats.Nodup := by
  induction rs with
  | nil => exact fun _ h => h
  | cons r t ih =>
    intro od h
    exact ih _ (foldl_insertUnique_nodup r.earnings od.earnCats h)

theorem foldl_orgDataAdd_dedCats_nodup (rs : List DbExportRecord) :
    ∀ od : OrgData, od.dedCats.Nodup → (rs.foldl orgDataAdd od).dedCats.Nodup := by
  induction rs with
  | nil => exact fun _ h => h
  | cons r t ih =>
    intro od h
    exact ih _ (foldl_insertUnique_nodup r.deductions od.dedCats h)

theorem groupStep_single (o : Str) (od : OrgData) (r : DbExportRecord)
    (hkey : normalizeOrgName r.organization = o) :
    groupStep [(o, od)] r = [(o, orgDataAdd od r)] := by
  simp only [groupStep, hkey]
  rw [List.find?_cons_of_pos _ (by simp)]
  simp

theorem foldl_groupStep_single (o : Str) (rs : List DbExportRecord)
    (h : ∀ r ∈ rs, normalizeOrgName r.organization = o) :
    ∀ od : OrgData, rs.foldl groupStep [(o, od)] = [(o, rs.foldl orgDataAdd od)] := by
  induction rs with
  | nil => exact fun _ => rfl
  | cons r t ih =>
    intro od
    rw [List.foldl_cons, groupStep_single o od r (h r (List.mem_cons_self ..)),
      List.foldl_cons]
    exact ih (fun r' hr' => h r' (List.mem_cons_of_mem _ hr')) (orgDataAdd od r)

theorem groupByOrg_single (o : Str) (r0 : DbExportRecord) (rest : List DbExportRecord)
    (h : ∀ r ∈ r0 :: rest, normalizeOrgName r.organization = o) :
    groupByOrg (r0 :: rest) = [(o, (r0 :: rest).foldl orgDataAdd ⟨[], [], [], [], []⟩)] := by
  unfold groupByOrg
  rw [List.foldl_cons, List.foldl_cons]
  have hstep : groupStep [] r0 = [(o, orgDataAdd ⟨[], [], [], [], []⟩ r0)] := by
    simp only [groupStep, h r0 (List.mem_cons_self ..)]
    rfl
  rw [hstep]
  exact foldl_groupStep_single o rest (fun r hr => h r (List.mem_cons_of_mem _ hr))
    (orgDataAdd ⟨[], [], [], [], []⟩ r0)

theorem exportRow_length (eCats dCats : List Str) (r : DbExportRecord) :
    (exportRow eCats dCats r).length = (exportHeaders eCats dCats).length := by
  simp [exportRow, exportHeaders]

theorem findMonthYearHeader_export (eCats dCats : List Str) :
    findMonthYearHeader (exportHeaders eCats dCats) = S "Month Year" := by
  unfold findMonthYearHeader exportHeaders
  rw [List.find?_cons_of_pos _ (by decide)]

theorem exportSheet_true_true (od : OrgData) :
    exportSheet true true od =
      (sortRecords od.records).map
        (fun r => (exportHeaders (sortStrs od.earnCats) (sortStrs od.dedCats)).zip
          (exportRow (sortStrs od.earnCats) (sortStrs od.dedCats) r)) := by
  simp [exportSheet, List.map_map]

theorem processSheetGo_map_ok {α : Type} (headers : List Str) (mYH org : Str)
    (f : α → Row) (g : α → ParsedRecord) :
    ∀ l : List α, (∀ a ∈ l, rowOutcome headers mYH org (f a) = .ok (g a)) →
      ∀ i : ℕ, processSheetGo headers mYH org i (l.map f) = ⟨l.map g, 0, []⟩ := by
  intro l
  induction l with
  | nil => exact fun _ _ => rfl
  | cons a t ih =>
    intro h i
    rw [List.map_cons, processSheetGo_cons,
      ih (fun b hb => h b (List.mem_cons_of_mem _ hb)) (i + 1),
      h a (List.mem_cons_self ..)]
    rfl

theorem processSheet_all_ok {α : Type} (f : α → Row) (g : α → ParsedRecord) (org : Str)
    (headers : List Str) (a0 : α) (l : List α)
    (hfst : (f a0).map Prod.fst = headers)
    (hok : ∀ a ∈ a0 :: l, rowOutcome headers (findMonthYearHeader headers) org (f a) =
      .ok (g a)) :
    processSheet ((a0 :: l).map f) org = ⟨(a0 :: l).map g, 0, []⟩ := by
  rw [List.map_cons]
  show processSheetGo ((f a0).map Prod.fst)
      (findMonthYearHeader ((f a0).map Prod.fst)) org 0 (f a0 :: l.map f) = _
  rw [hfst, ← List.map_cons f]
  exact processSheetGo_map_ok headers (findMonthYearHeader headers) org f g (a0 :: l) hok 0

/-- **C2 (amended).** Export followed by re-import is NOT the identity claimed
    by the specification: even in the benign regime (one organization whose
    name survives normalization and the 31-character sheet-name cut, months in
    1..12, years in 2000..2100, per-record duplicate-free category keys,
    earning and deduction categories disjoint and distinct from the reserved
    header names, non-zero amounts, and a category classification agreeing
    with the importer), re-importing the exported workbook reproduces every
    record's month, year, organization and declared totals and its per-category
    earning and deduction amounts, but each parsed record carries `netSalary`
    0 instead of the stored net salary (the export writes it under "Net Pay",
    which the importer does not treat as the net-salary column) and, when the
    stored net salary is non-zero, an extra "Net Pay" earning line item. -/
theorem c2_amended_round_trip (o : Str) (rs : List DbExportRecord)
    (hne : rs ≠ [])
    (horg : ∀ r ∈ rs, r.organization = o)
    (hnorm : normalizeOrgName o = o)
    (ho31 : o.take 31 = o)
    (hoe : o ≠ [])
    (hm : ∀ r ∈ rs, r.month ∈ Finset.Icc 1 12)
    (hy : ∀ r ∈ rs, r.year ∈ Finset.Icc (2000 : ℤ) 2100)
    (hkE : ∀ r ∈ rs, (r.earnings.map LineItem.category).Nodup)
    (hkD : ∀ r ∈ rs, (r.deductions.map LineItem.category).Nodup)
    (hresE : ∀ r ∈ rs, ∀ it ∈ r.earnings, it.category ∉ exportReservedNames)
    (hresD : ∀ r ∈ rs, ∀ it ∈ r.deductions, it.category ∉ exportReservedNames)
    (hdisj : ∀ r1 ∈ rs, ∀ r2 ∈ rs, ∀ d ∈ r1.deductions, ∀ e ∈ r2.earnings,
      d.category ≠ e.category)
    (hnzE : ∀ r ∈ rs, ∀ it ∈ r.earnings, it.amount ≠ 0)
    (hnzD : ∀ r ∈ rs, ∀ it ∈ r.deductions, it.amount ≠ 0)
    (hclE : ∀ r ∈ rs, ∀ it ∈ r.earnings,
      classifyColumn (ORG_EARNINGS o) (ORG_DEDUCTIONS o) it.category = .earning)
    (hclD : ∀ r ∈ rs, ∀ it ∈ r.deductions,
      classifyColumn (ORG_EARNINGS o) (ORG_DEDUCTIONS o) it.category = .deduction) :
    (buildImportPlan (exportWorkbook true true rs)).invalidRows = [] ∧
    (buildImportPlan (exportWorkbook true true rs)).totalSkippedRows = 0 ∧
    (buildImportPlan (exportWorkbook true true rs)).sheets.map SheetPlan.sheetName = [o] ∧
    List.Perm
      (((buildImportPlan (exportWorkbook true true rs)).sheets.flatMap
        SheetPlan.records).map parsedSummary)
      (rs.map (exportedSummary o)) := by
  obtain ⟨r0, rest, rfl⟩ : ∃ r0 rest, rs = r0 :: rest := by
    cases rs with
    | nil => exact absurd rfl hne
    | cons a t => exact ⟨a, t, rfl⟩
  have hgroup : groupByOrg (r0 :: rest) =
      [(o, (r0 :: rest).foldl orgDataAdd ⟨[], [], [], [], []⟩)] :=
    groupByOrg_single o r0 rest (fun r hr => by rw [horg r hr]; exact hnorm)
  set OD : OrgData := (r0 :: rest).foldl orgDataAdd ⟨[], [], [], [], []⟩ with hOD
  have hODrecs : OD.records = r0 :: rest := by
    rw [hOD, foldl_orgDataAdd_records]
    rfl
  set eCats : List Str := sortStrs OD.earnCats with heCats
  set dCats : List Str := sortStrs OD.dedCats with hdCats
  have heperm : List.Perm eCats OD.earnCats := sortByLe_perm strLe OD.earnCats
  have hdperm : List.Perm dCats OD.dedCats := sortByLe_perm strLe OD.dedCats
  have heMem : ∀ y : Str, y ∈ eCats ↔
      ∃ r ∈ r0 :: rest, ∃ e ∈ r.earnings, e.category = y := by
    intro y
    rw [heperm.mem_iff, hOD, foldl_orgDataAdd_earnCats_mem]
    simp
  have hdMem : ∀ y : Str, y ∈ dCats ↔
      ∃ r ∈ r0 :: rest, ∃ d ∈ r.deductions, d.category = y := by
    intro y
    rw [hdperm.mem_iff, hOD, foldl_orgDataAdd_dedCats_mem]
    simp
  have heNodup : eCats.Nodup :=
    heperm.nodup_iff.mpr
      (foldl_orgDataAdd_earnCats_nodup (r0 :: rest) ⟨[], [], [], [], []⟩ List.nodup_nil)
  have hdNodup : dCats.Nodup :=
    hdperm.nodup_iff.mpr
      (foldl_orgDataAdd_dedCats_nodup (r0 :: rest) ⟨[], [], [], [], []⟩ List.nodup_nil)
  have heRes : ∀ c ∈ eCats, c ∉ exportReservedNames := by
    intro c hc
    obtain ⟨r, hr, e, he, rfl⟩ := (heMem c).mp hc
    exact hresE r hr e he
  have hdRes : ∀ c ∈ dCats, c ∉ exportReservedNames := by
    intro c hc
    obtain ⟨r, hr, d, hd, rfl⟩ := (hdMem c).mp hc
    exact hresD r hr d hd
  have hEDcats : ∀ c ∈ dCats, c ∉ eCats := by
    intro c hc hce
    obtain ⟨r1, hr1, d, hd, hdc⟩ := (hdMem c).mp hc
    obtain ⟨r2, hr2, e, he, hec⟩ := (heMem c).mp hce
    exact hdisj r1 hr1 r2 hr2 d hd e he (by rw [hdc, hec])
  have hsorted_mem : ∀ r ∈ sortRecords (r0 :: rest), r ∈ r0 :: rest := by
    intro r hr
    exact (sortByLe_perm recLe (r0 :: rest)).mem_iff.mp hr
  have hrowOk : ∀ r ∈ sortRecords (r0 :: rest),
      rowOutcome (exportHeaders eCats dCats) (S "Month Year") o
        ((exportHeaders eCats dCats).zip (exportRow eCats dCats r)) =
        .ok (roundTripParse o eCats dCats r) := by
    intro r hr
    have hr' := hsorted_mem r hr
    exact rowOutcome_exportRow o eCats dCats r (hm r hr') (hy r hr')
      heRes hdRes hEDcats (hnzE r hr') (hnzD r hr') (hclE r hr') (hclD r hr')
  have hnameOf : sheetNameOf o = o := by
    unfold sheetNameOf
    rw [ho31, if_neg (fun hmt => hoe (List.isEmpty_iff.mp hmt))]
  have hwb : exportWorkbook true true (r0 :: rest) =
      [(o, exportSheet true true OD)] := by
    unfold exportWorkbook
    rw [hgroup]
    simp only [List.map_cons, List.map_nil]
    rw [hnameOf]
  have hsheet := exportSheet_true_true OD
  rw [hODrecs, ← heCats, ← hdCats] at hsheet
  obtain ⟨s0, srest, hsortEq⟩ : ∃ s0 srest, sortRecords (r0 :: rest) = s0 :: srest := by
    have hnil : List.Perm (sortRecords (r0 :: rest)) (r0 :: rest) :=
      sortByLe_perm recLe (r0 :: rest)
    cases hs : sortRecords (r0 :: rest) with
    | nil =>
      rw [hs] at hnil
      exact absurd hnil.length_eq (by simp)
    | cons a t => exact ⟨a, t, rfl⟩
  have hps : processSheet (exportSheet true true OD) o =
      ⟨(sortRecords (r0 :: rest)).map (roundTripParse o eCats dCats), 0, []⟩ := by
    rw [hsheet, hsortEq]
    exact processSheet_all_ok _ (roundTripParse o eCats dCats) o
      (exportHeaders eCats dCats) s0 srest
      (List.map_fst_zip _ _ (le_of_eq (exportRow_length eCats dCats s0).symm))
      (fun a ha => by
        rw [findMonthYearHeader_export]
        exact hrowOk a (by rw [hsortEq]; exact ha))
  have hrecsne :
      ((sortRecords (r0 :: rest)).map (roundTripParse o eCats dCats)).isEmpty = false := by
    rw [hsortEq]
    rfl
  have hplan : buildImportPlan (exportWorkbook true true (r0 :: rest)) =
      ⟨[⟨o, (sortRecords (r0 :: rest)).map (roundTripParse o eCats dCats), 0⟩],
       ((sortRecords (r0 :: rest)).map (roundTripParse o eCats dCats)).length, 0, []⟩ := by
    rw [hwb]
    simp [buildImportPlan, hps, hrecsne, hsortEq]
  have hsum : ∀ r ∈ r0 :: rest,
      parsedSummary (roundTripParse o eCats dCats r) = exportedSummary o r := by
    intro r hr
    have hpe : List.Perm (catItems eCats r.earnings) r.earnings :=
      filterMap_find_perm eCats r.earnings heNodup
        (fun it hit => (heMem it.category).mpr ⟨r, hr, it, hit, rfl⟩) (hkE r hr)
    have hpd : List.Perm (catItems dCats r.deductions) r.deductions :=
      filterMap_find_perm dCats r.deductions hdNodup
        (fun it hit => (hdMem it.category).mpr ⟨r, hr, it, hit, rfl⟩) (hkD r hr)
    have he : (↑(catItems eCats r.earnings) : Multiset LineItem) =
        (↑r.earnings : Multiset LineItem) := Multiset.coe_eq_coe.mpr hpe
    have hea : (↑(catItems eCats r.earnings ++ netPayItems r) : Multiset LineItem) =
        (↑r.earnings : Multiset LineItem) + (↑(netPayItems r) : Multiset LineItem) :=
      Multiset.coe_eq_coe.mpr (hpe.append_right (netPayItems r))
    have hd : (↑(catItems dCats r.deductions) : Multiset LineItem) =
        (↑r.deductions : Multiset LineItem) := Multiset.coe_eq_coe.mpr hpd
    simp [parsedSummary, exportedSummary, roundTripParse, hea, he, hd]
  have hmapeq :
      (((sortRecords (r0 :: rest)).map (roundTripParse o eCats dCats)).map parsedSummary) =
        (sortRecords (r0 :: rest)).map (exportedSummary o) := by
    rw [List.map_map]
    exact List.map_congr_left (fun r hr => hsum r (hsorted_mem r hr))
  refine ⟨by rw [hplan], by rw [hplan], by rw [hplan]; rfl, ?_⟩
  rw [hplan]
  simp only [List.flatMap_cons, List.flatMap_nil, List.append_nil]
  rw [hmapeq]
  exact (sortByLe_perm recLe (r0 :: rest)).map (exportedSummary o)

/-- A concrete benign record for instantiating the amended round-trip theorem. -/
def c2WitnessRecord : DbExportRecord :=
  ⟨1, 2025, S "A", 50, 10, 40, [⟨S "Base", 50⟩], [⟨S "Tax", 10⟩]⟩

theorem c2_amended_round_trip_witness :
    (buildImportPlan (exportWorkbook true true [c2WitnessRecord])).invalidRows = [] ∧
    (buildImportPlan (exportWorkbook true true [c2WitnessRecord])).totalSkippedRows = 0 ∧
    (buildImportPlan (exportWorkbook true true [c2WitnessRecord])).sheets.map
      SheetPlan.sheetName = [S "A"] ∧
    List.Perm
      (((buildImportPlan (exportWorkbook true true [c2WitnessRecord])).sheets.flatMap
        SheetPlan.records).map parsedSummary)
      ([c2WitnessRecord].map (exportedSummary (S "A"))) :=
  c2_amended_round_trip (S "A") [c2WitnessRecord] (by decide) (by decide) (by decide)
    (by decide) (by decide) (by decide) (by decide) (by decide) (by decide) (by decide)
    (by decide) (by decide) (by decide) (by decide) (by decide) (by decide)

/-- A persisted record with a non-zero net salary, refuting the literal
    round-trip claim. -/
def c2CexRecord : DbExportRecord :=
  ⟨1, 2025, S "ACME", 50, 10, 100, [⟨S "Base", 50⟩], [⟨S "Tax", 10⟩]⟩

/-- **C2 (counterexample).** Exporting the single record (Jan 2025, "ACME",
    totals 50/10, net salary 100, one earning "Base" 50, one deduction "Tax"
    10) and re-importing the produced workbook yields a record whose
    `netSalary` is 0 — not the stored 100 — and whose earnings gained an extra
    "Net Pay" line item of 100: the tuple and the per-category amounts are NOT
    reproduced, because the export writes net salary under the header
    "Net Pay" while the importer only recognizes "Net Salary" as the
    net-salary column and buckets "Net Pay" as an ordinary earning column. -/
theorem c2_counterexample_net_pay_breaks_round_trip :
    ((buildImportPlan (exportWorkbook true true [c2CexRecord])).sheets.flatMap
        SheetPlan.records) =
      [⟨S "ACME", 1, 2025, [⟨S "Base", 50⟩, ⟨S "Net Pay", 100⟩], [⟨S "Tax", 10⟩],
        50, 10, 0⟩] ∧
    c2CexRecord.netSalary = 100 ∧ (100 : ℚ) ≠ 0 := by decide

end Insight
